import Mathlib

/-!
# Ruler / measurement subsystem of the 3D viewer (`src/assets/js/viewer.js`)

A shallow embedding of the measurement code of `viewer.js`:

* the vector primitives of the rendering engine that the code calls
  (`subVectors`, `length`, `normalize`, `dot`, `addScaledVector`, `distanceTo`);
* `closestPointOnLineSegment` and the snap decision of `raycastToSurface`;
* `formatDistance` with its nested `inchesToFraction`;
* the scale bookkeeping of `finalizeModel` and `updateMeasurementLine`;
* the measurement store (`addMeasurement`, `removeMeasurement`, `selectMeasurement`,
  `toggleRulerMode`, `updateRulerPointPosition`, the unit toggle);
* the label flip of `updateMeasurementLine` and the pointer handlers of an
  endpoint drag.

Numbers are elements of an ordered field `K`; the square root of the platform is
a parameter `sqrt : K → K` (likewise `atan2` and `pi`), so every definition is
executable over `ℚ` and the geometric theorems are stated over `ℝ` with
`Real.sqrt`.  Floating-point
rounding is not modelled.
-/

namespace Viewer

/-! ## Engine vectors -/

/-- A three-component vector of the rendering engine (`THREE.Vector3`). -/
structure Vector3 (K : Type) where
  x : K
  y : K
  z : K
deriving DecidableEq, Repr

namespace Vector3

variable {K : Type} [LinearOrderedField K]

/-- Engine `subVectors(a, b)`: the componentwise difference `a - b`. -/
def subVectors (a b : Vector3 K) : Vector3 K :=
  ⟨a.x - b.x, a.y - b.y, a.z - b.z⟩

/-- Engine `dot`. -/
def dot (a v : Vector3 K) : K :=
  a.x * v.x + a.y * v.y + a.z * v.z

/-- Engine `length`: the square root of the sum of the squared components. -/
def length (sqrt : K → K) (a : Vector3 K) : K :=
  sqrt (a.x * a.x + a.y * a.y + a.z * a.z)

/-- Engine `multiplyScalar`. -/
def multiplyScalar (a : Vector3 K) (s : K) : Vector3 K :=
  ⟨a.x * s, a.y * s, a.z * s⟩

/-- Engine `divideScalar(s)`, which is `multiplyScalar(1 / s)`. -/
def divideScalar (a : Vector3 K) (s : K) : Vector3 K :=
  multiplyScalar a (1 / s)

/-- Engine `normalize`, which is `divideScalar(length() || 1)`: a zero-length
vector is divided by one and so left unchanged. -/
def normalize (sqrt : K → K) (a : Vector3 K) : Vector3 K :=
  divideScalar a (if length sqrt a = 0 then 1 else length sqrt a)

/-- Engine `addScaledVector(v, s)`: `a + v * s`. -/
def addScaledVector (a v : Vector3 K) (s : K) : Vector3 K :=
  ⟨a.x + v.x * s, a.y + v.y * s, a.z + v.z * s⟩

/-- Engine `distanceToSquared`. -/
def distanceToSquared (a v : Vector3 K) : K :=
  (a.x - v.x) * (a.x - v.x) + (a.y - v.y) * (a.y - v.y) + (a.z - v.z) * (a.z - v.z)

/-- Engine `distanceTo`: the square root of `distanceToSquared`. -/
def distanceTo (sqrt : K → K) (a v : Vector3 K) : K :=
  sqrt (distanceToSquared a v)

/-- Engine `lerpVectors(v1, v2, alpha)`: the point `v1 + (v2 - v1) * alpha`.  For
`0 ≤ alpha ≤ 1` these are exactly the points of the closed segment `[v1, v2]`. -/
def lerpVectors (v1 v2 : Vector3 K) (alpha : K) : Vector3 K :=
  ⟨v1.x + (v2.x - v1.x) * alpha, v1.y + (v2.y - v1.y) * alpha, v1.z + (v2.z - v1.z) * alpha⟩

end Vector3

section Geometry

variable {K : Type} [LinearOrderedField K]

/-- Source `closestPointOnLineSegment(point, v1, v2)` (viewer.js 1012-1020). -/
def closestPointOnLineSegment (sqrt : K → K) (point v1 v2 : Vector3 K) : Vector3 K :=
  let line := Vector3.subVectors v2 v1
  let len := Vector3.length sqrt line
  let line := Vector3.normalize sqrt line
  let toPoint := Vector3.subVectors point v1
  let t := Vector3.dot toPoint line
  let t := max 0 (min len t)
  Vector3.addScaledVector v1 line t

/-- The three world-space vertices of the intersected face, in the order of
`faceIndices` (viewer.js 962-972, after `applyMatrix4(matrixWorld)`). -/
structure Face (K : Type) where
  v0 : Vector3 K
  v1 : Vector3 K
  v2 : Vector3 K

/-- The array `vertices` of the source. -/
def Face.vertices (f : Face K) : List (Vector3 K) :=
  [f.v0, f.v1, f.v2]

/-- The pairs `(vertices[i], vertices[(i + 1) % 3])` for `i = 0, 1, 2`. -/
def Face.edges (f : Face K) : List (Vector3 K × Vector3 K) :=
  [(f.v0, f.v1), (f.v1, f.v2), (f.v2, f.v0)]

/-- One entry of the array returned by `raycaster.intersectObject`: the hit point
and, when `hit.face`, `hit.object.geometry` and its `position` attribute are all
present, the world-space vertices of the hit face. -/
structure Intersection (K : Type) where
  point : Vector3 K
  face : Option (Face K)

/-- One pass of the loop `for (const v of vertices)` (viewer.js 976-982).  The
accumulator is `(closestVertex, closestVertexDist)`; `⊤` is `Infinity`. -/
def closestVertexStep (sqrt : K → K) (hitPoint : Vector3 K)
    (acc : Option (Vector3 K) × WithTop K) (v : Vector3 K) : Option (Vector3 K) × WithTop K :=
  let dist := Vector3.distanceTo sqrt hitPoint v
  if (dist : WithTop K) < acc.2 then (some v, (dist : WithTop K)) else acc

/-- The nearest-vertex loop, started from `(null, Infinity)`. -/
def closestVertexLoop (sqrt : K → K) (hitPoint : Vector3 K) (vertices : List (Vector3 K)) :
    Option (Vector3 K) × WithTop K :=
  vertices.foldl (closestVertexStep sqrt hitPoint) (none, ⊤)

/-- One pass of the loop `for (let i = 0; i < 3; i++)` (viewer.js 986-995).  The
accumulator is `(closestEdgePoint, closestEdgeDist)`. -/
def closestEdgeStep (sqrt : K → K) (hitPoint : Vector3 K)
    (acc : Option (Vector3 K) × WithTop K) (e : Vector3 K × Vector3 K) :
    Option (Vector3 K) × WithTop K :=
  let edgePoint := closestPointOnLineSegment sqrt hitPoint e.1 e.2
  let dist := Vector3.distanceTo sqrt hitPoint edgePoint
  if (dist : WithTop K) < acc.2 then (some edgePoint, (dist : WithTop K)) else acc

/-- The nearest-edge-point loop, started from `(null, Infinity)`. -/
def closestEdgeLoop (sqrt : K → K) (hitPoint : Vector3 K)
    (edges : List (Vector3 K × Vector3 K)) : Option (Vector3 K) × WithTop K :=
  edges.foldl (closestEdgeStep sqrt hitPoint) (none, ⊤)

/-- What `raycastToSurface` reads from its surroundings: whether `currentModel`
and `raycaster` are set, the viewport rectangle, the ray caster itself, as the
function from normalized device coordinates to the array
`raycaster.intersectObject(currentModel, true)` returns after `setFromCamera`,
and the camera unprojection used by `screenToWorldAtDistance`. -/
structure Scene (K : Type) where
  currentModel : Bool
  raycaster : Bool
  rectLeft : K
  rectTop : K
  clientWidth : K
  clientHeight : K
  intersectObject : K → K → List (Intersection K)
  unprojectAtDistance : K → K → Vector3 K

/-- The conversion of `screenX` to normalized device coordinates
(viewer.js 945 and 1025). -/
def ndcX (sc : Scene K) (screenX : K) : K :=
  ((screenX - sc.rectLeft) / sc.clientWidth) * 2 - 1

/-- The conversion of `screenY` to normalized device coordinates
(viewer.js 946 and 1026). -/
def ndcY (sc : Scene K) (screenY : K) : K :=
  -((screenY - sc.rectTop) / sc.clientHeight) * 2 + 1

/-- The snap decision of `raycastToSurface` for a hit with a face
(viewer.js 974-1006): the value returned from inside or after the
`if (hit.face && hit.object.geometry)` block. -/
def snapDecision (sqrt : K → K) (modelScaleFactor : K) (hitPoint : Vector3 K) (f : Face K) :
    Option (Vector3 K) :=
  let cv := closestVertexLoop sqrt hitPoint f.vertices
  let ce := closestEdgeLoop sqrt hitPoint f.edges
  let snapThreshold := 0.5 / modelScaleFactor
  if cv.2 < ((snapThreshold * 0.5 : K) : WithTop K) then cv.1
  else if ce.2 < ((snapThreshold : K) : WithTop K) then ce.1
  else some hitPoint

/-- Source `raycastToSurface(screenX, screenY)` (viewer.js 940-1010); `none` is
`null`. -/
def raycastToSurface (sqrt : K → K) (sc : Scene K) (modelScaleFactor : K)
    (screenX screenY : K) : Option (Vector3 K) :=
  if !sc.currentModel || !sc.raycaster then none
  else
    let x := ndcX sc screenX
    let y := ndcY sc screenY
    match sc.intersectObject x y with
    | hit :: _ =>
      match hit.face with
      | some f => snapDecision sqrt modelScaleFactor hit.point f
      | none => some hit.point
    | [] => none

/-- Source `screenToWorldAtDistance(screenX, screenY)` (viewer.js 1022-1032): the
camera unprojection is the scene's `unprojectAtDistance`, applied to the
normalized device coordinates. -/
def screenToWorldAtDistance (sc : Scene K) (screenX screenY : K) : Vector3 K :=
  sc.unprojectAtDistance (ndcX sc screenX) (ndcY sc screenY)

end Geometry

section Format

variable {K : Type} [LinearOrderedField K] [FloorRing K]

/-- Platform `Math.round`: the nearest integer, ties towards plus infinity. -/
def mathRound (x : K) : Int :=
  ⌊x + 1 / 2⌋

/-- Left padding with the digit zero up to `width` characters. -/
def padStart (width : Nat) (s : String) : String :=
  String.mk (List.replicate (width - s.length) '0') ++ s

/-- The decimal numeral with `fractionDigits` digits after the point whose value
is `n / 10 ^ fractionDigits`: the digits of the quotient, and for
`fractionDigits ≠ 0` a point and the remainder padded to `fractionDigits`
digits. -/
def fixedPoint (n fractionDigits : Nat) : String :=
  if fractionDigits = 0 then toString (n / 10 ^ fractionDigits)
  else toString (n / 10 ^ fractionDigits) ++ "." ++
    padStart fractionDigits (toString (n % 10 ^ fractionDigits))

/-- Platform `Number.prototype.toFixed` on its fixed-notation branch (magnitude
below `10 ^ 21`): a minus sign for a negative number, then the numeral of the
integer `n` for which `n / 10 ^ fractionDigits` is nearest to the magnitude, the
larger `n` on a tie. -/
def toFixed (x : K) (fractionDigits : Nat) : String :=
  let sign := if x < 0 then "-" else ""
  let x := if x < 0 then -x else x
  let n : Nat := ⌊x * 10 ^ fractionDigits + 1 / 2⌋₊
  sign ++ fixedPoint n fractionDigits

/-- Platform `%` on numbers: the remainder of the truncated division, with the
sign of the dividend. -/
def fmod (x y : K) : K :=
  x - y * ((if 0 ≤ x / y then ⌊x / y⌋ else ⌈x / y⌉ : Int) : K)

/-- The loop `while (num % 2 === 0 && den % 2 === 0) { num /= 2; den /= 2; }`
(viewer.js 1104) with a bound on the number of condition tests; `none` when the
bound is reached before the condition fails. -/
def halveLoop : Nat → Int → Int → Option (Int × Int)
  | 0, _, _ => none
  | fuel + 1, num, den =>
    if num % 2 = 0 ∧ den % 2 = 0 then halveLoop fuel (num / 2) (den / 2) else some (num, den)

/-- Source `inchesToFraction(inches)` (viewer.js 1094-1107), nested in
`formatDistance`; `fuel` bounds its loop. -/
def inchesToFraction (fuel : Nat) (inches : K) : Option String :=
  let wholeInches : Int := ⌊inches⌋
  let decimal : K := inches - (wholeInches : K)
  let sixteenths : Int := mathRound (decimal * 16)
  if sixteenths = 0 then some (if wholeInches > 0 then toString wholeInches else "0")
  else if sixteenths = 16 then some (toString (wholeInches + 1))
  else
    match halveLoop fuel sixteenths 16 with
    | none => none
    | some (num, den) =>
      some (if wholeInches > 0 then
          toString wholeInches ++ " " ++ toString num ++ "/" ++ toString den
        else toString num ++ "/" ++ toString den)

/-- Source `formatDistance(originalDistance)` (viewer.js 1082-1118); the global
`useMetric` is an argument, `fuel` bounds the loop of `inchesToFraction`. -/
def formatDistance (fuel : Nat) (useMetric : Bool) (originalDistance : K) : Option String :=
  if useMetric then
    if originalDistance ≥ 1 then some (toFixed originalDistance 2 ++ " m")
    else if originalDistance ≥ 0.01 then some (toFixed (originalDistance * 100) 1 ++ " cm")
    else some (toFixed (originalDistance * 1000) 1 ++ " mm")
  else
    let totalInches := originalDistance * 39.3701
    if totalInches ≥ 12 then
      let feet : Int := ⌊totalInches / 12⌋
      let inches := fmod totalInches 12
      if inches < 0.03125 then some (toString feet ++ "'")
      else (inchesToFraction fuel inches).map (fun s => toString feet ++ "' " ++ s ++ "\"")
    else (inchesToFraction fuel totalInches).map (fun s => s ++ "\"")

end Format

section Scale

variable {K : Type} [LinearOrderedField K]

/-- Engine `addVectors(a, b)`. -/
def Vector3.addVectors (a b : Vector3 K) : Vector3 K :=
  ⟨a.x + b.x, a.y + b.y, a.z + b.z⟩

/-- An axis-aligned bounding box of the engine (`THREE.Box3`). -/
structure Box3 (K : Type) where
  min : Vector3 K
  max : Vector3 K

/-- Engine `Box3.isEmpty`. -/
def Box3.isEmpty (b : Box3 K) : Bool :=
  decide (b.max.x < b.min.x) || decide (b.max.y < b.min.y) || decide (b.max.z < b.min.z)

/-- Engine `Box3.getCenter`: the zero vector for an empty box, the midpoint
otherwise. -/
def Box3.getCenter (b : Box3 K) : Vector3 K :=
  if b.isEmpty then ⟨0, 0, 0⟩ else Vector3.multiplyScalar (Vector3.addVectors b.min b.max) 0.5

/-- Engine `Box3.getSize`: the zero vector for an empty box, `max - min`
otherwise. -/
def Box3.getSize (b : Box3 K) : Vector3 K :=
  if b.isEmpty then ⟨0, 0, 0⟩ else Vector3.subVectors b.max b.min

/-- The part of the loaded model that `finalizeModel` changes: the `position`
and `scale` of the root object. -/
structure Object3D (K : Type) where
  position : Vector3 K
  scale : Vector3 K

/-- The root object as a loader hands it over: at the origin, with unit scale. -/
def Object3D.identity : Object3D K :=
  ⟨⟨0, 0, 0⟩, ⟨1, 1, 1⟩⟩

/-- The world position of a point of the original model for an unrotated root
object without parent: scale componentwise, then translate. -/
def Object3D.localToWorld (o : Object3D K) (p : Vector3 K) : Vector3 K :=
  ⟨p.x * o.scale.x + o.position.x, p.y * o.scale.y + o.position.y,
    p.z * o.scale.z + o.position.z⟩

/-- What `finalizeModel` writes: the globals `modelScaleFactor` and
`modelUnitConversion`, and the transformed root object. -/
structure LoadedModel (K : Type) where
  modelScaleFactor : K
  modelUnitConversion : K
  model : Object3D K

/-- The largest dimension `maxDim` of the bounding box (viewer.js 195-197). -/
def maxDim (box : Box3 K) : K :=
  max (max box.getSize.x box.getSize.y) box.getSize.z

/-- The branch of `finalizeModel` that detects the unit of the file
(viewer.js 202-224). -/
def unitConversion (currentFileType : String) (maxDim : K) : K :=
  if currentFileType = "ifc" then
    if maxDim > 1000 then 0.001
    else if maxDim > 50 then 0.0254
    else 1
  else if currentFileType = "stl" then
    if maxDim > 100 then 0.001 else 1
  else if currentFileType = "glb" then 1
  else
    if maxDim > 1000 then 0.001 else 1

/-- Source `finalizeModel(model)` (viewer.js 190-227), as far as the scale state
goes; `box` is `new THREE.Box3().setFromObject(currentModel)`. -/
def finalizeModel (currentFileType : String) (box : Box3 K) (model : Object3D K) :
    LoadedModel K :=
  let center := box.getCenter
  let maxDim := maxDim box
  let scale := if maxDim > 0 then 5 / maxDim else 1
  { modelScaleFactor := scale
    modelUnitConversion := unitConversion currentFileType maxDim
    model :=
      { scale := Vector3.multiplyScalar model.scale scale
        position := Vector3.subVectors model.position (Vector3.multiplyScalar center scale) } }

/-- The conversion of `updateMeasurementLine` from world distance to original
units (viewer.js 1077-1078). -/
def originalDistance (sqrt : K → K) (modelScaleFactor modelUnitConversion : K)
    (point1World point2World : Vector3 K) : K :=
  (Vector3.distanceTo sqrt point1World point2World / modelScaleFactor) * modelUnitConversion

end Scale

section Store

variable {K : Type} [LinearOrderedField K] [FloorRing K]

/-- One entry of the array `measurements`: the two world points and the state
of its page elements that the ruler code writes, namely
`dataset.measurementIndex` of `point1El`, `point2El` and `lineEl`, whether the
three elements are displayed (`block`) or hidden (`none`), whether they carry
the class `selected`, and the `textContent` of the label (`none` when
`formatDistance` reached its loop bound). -/
structure Measurement (K : Type) where
  point1World : Vector3 K
  point2World : Vector3 K
  point1Index : Int
  point2Index : Int
  lineIndex : Int
  displayed : Bool
  selected : Bool
  textContent : Option String

/-- The ruler globals (viewer.js 27-35), `controls.enabled`, and the `disabled`
flag of the remove button. -/
structure RulerState (K : Type) where
  rulerMode : Bool
  measurements : List (Measurement K)
  selectedMeasurementIndex : Int
  isDraggingRulerPoint : Option (Int × Int)
  modelScaleFactor : K
  modelUnitConversion : K
  useMetric : Bool
  controlsEnabled : Bool
  removeDisabled : Bool

/-- The globals as the script initialises them. -/
def RulerState.initial : RulerState K :=
  { rulerMode := false
    measurements := []
    selectedMeasurementIndex := -1
    isDraggingRulerPoint := none
    modelScaleFactor := 1
    modelUnitConversion := 1
    useMetric := true
    controlsEnabled := true
    removeDisabled := true }

/-- The array access `measurements[index]` for an integer index: `none` is
`undefined`. -/
def measurementAt (ms : List (Measurement K)) (index : Int) : Option (Measurement K) :=
  if 0 ≤ index then ms.get? index.toNat else none

/-- Source `updateSelectionVisuals()` (viewer.js 927-934). -/
def updateSelectionVisuals (st : RulerState K) : RulerState K :=
  { st with
    measurements := st.measurements.mapIdx
      (fun i m => { m with selected := decide ((i : Int) = st.selectedMeasurementIndex) }) }

/-- Source `updateRemoveButtonState()` (viewer.js 936-938). -/
def updateRemoveButtonState (st : RulerState K) : RulerState K :=
  { st with removeDisabled := decide (st.selectedMeasurementIndex < 0) }

/-- Source `selectMeasurement(index)` (viewer.js 921-925). -/
def selectMeasurement (st : RulerState K) (index : Int) : RulerState K :=
  updateRemoveButtonState (updateSelectionVisuals { st with selectedMeasurementIndex := index })

/-- Source `updateMeasurementLine(index)` (viewer.js 1047-1080), as far as the
label text goes: nothing happens without a measurement at `index` or outside
ruler mode. -/
def updateMeasurementLine (fuel : Nat) (sqrt : K → K) (st : RulerState K) (index : Int) :
    RulerState K :=
  match measurementAt st.measurements index with
  | none => st
  | some m =>
    if !st.rulerMode then st
    else
      let text := formatDistance fuel st.useMetric
        (originalDistance sqrt st.modelScaleFactor st.modelUnitConversion
          m.point1World m.point2World)
      { st with measurements := st.measurements.set index.toNat { m with textContent := text } }

/-- Source `createMeasurementElements(index)` (viewer.js 789-835) together with
the measurement record built from it in `addMeasurement`: fresh elements carry
`index`, no class and an empty label. -/
def createMeasurement (index : Int) (point1World point2World : Vector3 K) : Measurement K :=
  { point1World := point1World
    point2World := point2World
    point1Index := index
    point2Index := index
    lineIndex := index
    displayed := false
    selected := false
    textContent := some "" }

/-- Source `addMeasurement()` (viewer.js 859-891). -/
def addMeasurement (fuel : Nat) (sqrt : K → K) (sc : Scene K) (st : RulerState K) :
    RulerState K :=
  let centerX := sc.clientWidth / 2
  let centerY := sc.clientHeight / 2
  let offset : K := 50
  let index : Int := st.measurements.length
  let point1World := (raycastToSurface sqrt sc st.modelScaleFactor (centerX - offset) centerY).getD
    (screenToWorldAtDistance sc (centerX - offset) centerY)
  let point2World := (raycastToSurface sqrt sc st.modelScaleFactor (centerX + offset) centerY).getD
    (screenToWorldAtDistance sc (centerX + offset) centerY)
  let measurement := { createMeasurement index point1World point2World with displayed := true }
  let st1 : RulerState K := { st with measurements := st.measurements ++ [measurement] }
  let st2 := selectMeasurement st1 index
  let st3 := updateMeasurementLine fuel sqrt st2 index
  updateRemoveButtonState st3

/-- Source `removeMeasurement(index)` (viewer.js 893-919). -/
def removeMeasurement (st : RulerState K) (index : Int) : RulerState K :=
  if index < 0 ∨ index ≥ st.measurements.length then st
  else
    let spliced := st.measurements.eraseIdx index.toNat
    let renumbered := spliced.mapIdx
      (fun i m => { m with point1Index := i, point2Index := i, lineIndex := i })
    let st1 : RulerState K := { st with measurements := renumbered }
    let st2 : RulerState K :=
      if st1.measurements.length = 0 then { st1 with selectedMeasurementIndex := -1 }
      else if st1.selectedMeasurementIndex ≥ st1.measurements.length then
        updateSelectionVisuals
          { st1 with selectedMeasurementIndex := (st1.measurements.length : Int) - 1 }
      else updateSelectionVisuals st1
    updateRemoveButtonState st2

end Store

section StoreOperations

variable {K : Type} [LinearOrderedField K] [FloorRing K]

/-- The two world points of a measurement. -/
def Measurement.worldPoints (m : Measurement K) : Vector3 K × Vector3 K :=
  (m.point1World, m.point2World)

/-- Source `updateAllMeasurements()` (viewer.js 1043-1045): `updateMeasurementLine`
for the indices `0, 1, ...` of the array, in order. -/
def updateAllMeasurements (fuel : Nat) (sqrt : K → K) (st : RulerState K) : RulerState K :=
  (List.range st.measurements.length).foldl
    (fun (s : RulerState K) (i : Nat) => updateMeasurementLine fuel sqrt s (i : Int)) st

/-- Source `toggleRulerMode()` (viewer.js 760-787), as far as the ruler state
goes. -/
def toggleRulerMode (fuel : Nat) (sqrt : K → K) (sc : Scene K) (st : RulerState K) :
    RulerState K :=
  let st1 : RulerState K := { st with rulerMode := !st.rulerMode }
  if st1.rulerMode then
    let st2 : RulerState K :=
      if st1.measurements.length = 0 then addMeasurement fuel sqrt sc st1
      else
        updateAllMeasurements fuel sqrt
          { st1 with
            measurements := st1.measurements.map (fun m => { m with displayed := true }) }
    updateRemoveButtonState st2
  else
    { st1 with
      measurements := st1.measurements.map (fun m => { m with displayed := false })
      selectedMeasurementIndex := -1 }

/-- The `click` and `touchend` handlers of a measurement label
(viewer.js 822-832): flip `useMetric`, then `updateAllMeasurements()`. -/
def toggleUseMetric (fuel : Nat) (sqrt : K → K) (st : RulerState K) : RulerState K :=
  updateAllMeasurements fuel sqrt { st with useMetric := !st.useMetric }

/-- Source `updateRulerPointPosition(measurementIndex, pointNum, screenX, screenY)`
(viewer.js 1120-1143), as far as the ruler state goes. -/
def updateRulerPointPosition (fuel : Nat) (sqrt : K → K) (sc : Scene K) (st : RulerState K)
    (measurementIndex pointNum : Int) (screenX screenY : K) : RulerState K :=
  match measurementAt st.measurements measurementIndex with
  | none => st
  | some m =>
    let m1 : Measurement K :=
      match raycastToSurface sqrt sc st.modelScaleFactor screenX screenY with
      | some worldPos =>
        if pointNum = 1 then { m with point1World := worldPos }
        else { m with point2World := worldPos }
      | none =>
        let projectedPos := screenToWorldAtDistance sc screenX screenY
        if pointNum = 1 then { m with point1World := projectedPos }
        else { m with point2World := projectedPos }
    let st1 : RulerState K :=
      { st with measurements := st.measurements.set measurementIndex.toNat m1 }
    updateMeasurementLine fuel sqrt st1 measurementIndex

/-- The two assignments of `finalizeModel` to the ruler globals
(viewer.js 200-224). -/
def setModelScale (st : RulerState K) (lm : LoadedModel K) : RulerState K :=
  { st with
    modelScaleFactor := lm.modelScaleFactor
    modelUnitConversion := lm.modelUnitConversion }

/-- The states the ruler can be in: the initial globals, and what the ruler
operations make of a reachable state, whatever the scene is at the time.
`selectMeasurement` is called with an index of the array or `-1`. -/
inductive Reachable (fuel : Nat) (sqrt : K → K) : RulerState K → Prop
  | initial : Reachable fuel sqrt RulerState.initial
  | add (sc : Scene K) (st : RulerState K) :
      Reachable fuel sqrt st → Reachable fuel sqrt (addMeasurement fuel sqrt sc st)
  | remove (index : Int) (st : RulerState K) :
      Reachable fuel sqrt st → Reachable fuel sqrt (removeMeasurement st index)
  | toggle (sc : Scene K) (st : RulerState K) :
      Reachable fuel sqrt st → Reachable fuel sqrt (toggleRulerMode fuel sqrt sc st)
  | select (index : Int) (st : RulerState K) :
      Reachable fuel sqrt st → -1 ≤ index → index < st.measurements.length →
      Reachable fuel sqrt (selectMeasurement st index)
  | unit (st : RulerState K) :
      Reachable fuel sqrt st → Reachable fuel sqrt (toggleUseMetric fuel sqrt st)
  | movePoint (sc : Scene K) (measurementIndex pointNum : Int) (screenX screenY : K)
      (st : RulerState K) :
      Reachable fuel sqrt st →
      Reachable fuel sqrt
        (updateRulerPointPosition fuel sqrt sc st measurementIndex pointNum screenX screenY)
  | load (currentFileType : String) (box : Box3 K) (model : Object3D K) (st : RulerState K) :
      Reachable fuel sqrt st →
      Reachable fuel sqrt (setModelScale st (finalizeModel currentFileType box model))

end StoreOperations

section SnapThreshold

variable {K : Type} [LinearOrderedField K]

/-- The constant `snapThreshold` of `raycastToSurface` (viewer.js 997), a distance
in world units. -/
def snapThreshold (modelScaleFactor : K) : K :=
  0.5 / modelScaleFactor

/-- The conversion of a world distance to original model units, before the unit
factor is applied (viewer.js 1078): division by `modelScaleFactor`. -/
def worldToOriginal (modelScaleFactor worldDistance : K) : K :=
  worldDistance / modelScaleFactor

end SnapThreshold

section LabelFlip

variable {K : Type} [LinearOrderedField K]

/-- The `angle` of `updateMeasurementLine` (viewer.js 1059-1062) in degrees; the
platform's `Math.atan2` and `Math.PI` are parameters. -/
def lineAngle (atan2 : K → K → K) (pi : K) (dx dy : K) : K :=
  atan2 dy dx * (180 / pi)

/-- The condition `angle > 90 || angle < -90` of `updateMeasurementLine`
(viewer.js 1069). -/
def labelFlipped (angle : K) : Bool :=
  decide (angle > 90) || decide (angle < -90)

/-- The two style properties of the label that `updateMeasurementLine` writes. -/
structure LabelStyle where
  transform : String
  top : String
deriving DecidableEq, Repr

/-- The label style chosen by `updateMeasurementLine` (viewer.js 1069-1075). -/
def labelStyle (angle : K) : LabelStyle :=
  if labelFlipped angle then
    { transform := "translateX(-50%) rotate(180deg)", top := "8px" }
  else
    { transform := "translateX(-50%)", top := "-24px" }

/-- The rotation of the label relative to its line, in degrees: 180 for the
flipped style, 0 otherwise. The label is a child of the line element, so its
rotation on screen is the line angle plus this. -/
def labelRotation (angle : K) : K :=
  if labelFlipped angle then 180 else 0

end LabelFlip

section Drag

variable {K : Type} [LinearOrderedField K] [FloorRing K]

/-- The `mousedown` and `touchstart` handlers of an endpoint element
(viewer.js 838-856), for the element with `dataset.measurementIndex = idx` and
`dataset.pointNum = pointNum`. -/
def pointPress (st : RulerState K) (idx pointNum : Int) : RulerState K :=
  selectMeasurement
    { st with isDraggingRulerPoint := some (idx, pointNum), controlsEnabled := false } idx

/-- The `mousemove` and `touchmove` handlers of the document
(viewer.js 1151-1154 and 1168-1172). -/
def pointerMove (fuel : Nat) (sqrt : K → K) (sc : Scene K) (st : RulerState K)
    (clientX clientY : K) : RulerState K :=
  match st.isDraggingRulerPoint with
  | none => st
  | some (measurementIndex, pointNum) =>
    if !st.rulerMode then st
    else updateRulerPointPosition fuel sqrt sc st measurementIndex pointNum clientX clientY

/-- The `mouseup` and `touchend` handlers of the document
(viewer.js 1156-1166 and 1174-1184). -/
def pointerRelease (st : RulerState K) : RulerState K :=
  match st.isDraggingRulerPoint with
  | none => st
  | some _ => { st with isDraggingRulerPoint := none, controlsEnabled := true }

/-- The pointer events that drive an endpoint drag. -/
inductive PointerEvent (K : Type) where
  | press (idx pointNum : Int)
  | move (sc : Scene K) (clientX clientY : K)
  | release

/-- The handler that runs for a pointer event. -/
def pointerStep (fuel : Nat) (sqrt : K → K) (st : RulerState K) :
    PointerEvent K → RulerState K
  | PointerEvent.press idx pointNum => pointPress st idx pointNum
  | PointerEvent.move sc clientX clientY => pointerMove fuel sqrt sc st clientX clientY
  | PointerEvent.release => pointerRelease st

/-- The state after a sequence of pointer events. -/
def runPointerEvents (fuel : Nat) (sqrt : K → K) (st : RulerState K)
    (events : List (PointerEvent K)) : RulerState K :=
  events.foldl (pointerStep fuel sqrt) st

end Drag

section Harness

/-- An exact square root on the rationals that are squares of rationals (the
integer square roots of numerator and denominator), for running the embedding on
concrete inputs. -/
def ratSqrt (q : ℚ) : ℚ :=
  (Nat.sqrt q.num.toNat : ℚ) / (Nat.sqrt q.den : ℚ)

/-- A scene with a loaded model whose ray caster reports one hit at
`(1/10, 0, 0)` on the face `(0,0,0), (4,0,0), (0,4,0)`, in a viewport of 800 by
600 pixels. -/
def sampleScene : Scene ℚ :=
  { currentModel := true
    raycaster := true
    rectLeft := 0
    rectTop := 0
    clientWidth := 800
    clientHeight := 600
    intersectObject := fun _ _ =>
      [{ point := ⟨1 / 10, 0, 0⟩, face := some ⟨⟨0, 0, 0⟩, ⟨4, 0, 0⟩, ⟨0, 4, 0⟩⟩ }]
    unprojectAtDistance := fun x y => ⟨x, y, 0⟩ }

/-- A store of two measurements with the second one selected. -/
def sampleStore : RulerState ℚ :=
  { rulerMode := true
    measurements :=
      [createMeasurement 0 ⟨0, 0, 0⟩ ⟨1, 0, 0⟩, createMeasurement 1 ⟨0, 0, 0⟩ ⟨0, 2, 0⟩]
    selectedMeasurementIndex := 1
    isDraggingRulerPoint := none
    modelScaleFactor := 1
    modelUnitConversion := 1
    useMetric := true
    controlsEnabled := true
    removeDisabled := false }

/-- A store of three measurements with the middle one selected. -/
def sampleStore3 : RulerState ℚ :=
  { sampleStore with
    measurements :=
      [createMeasurement 0 ⟨0, 0, 0⟩ ⟨1, 0, 0⟩, createMeasurement 1 ⟨0, 0, 0⟩ ⟨0, 2, 0⟩,
        createMeasurement 2 ⟨0, 0, 0⟩ ⟨0, 0, 3⟩] }

/-- A scene without a model, in a viewport of 800 by 600 pixels whose left edge
is 100 pixels and whose top edge is 60 pixels into the page. -/
def offsetScene : Scene ℚ :=
  { currentModel := false
    raycaster := true
    rectLeft := 100
    rectTop := 60
    clientWidth := 800
    clientHeight := 600
    intersectObject := fun _ _ => []
    unprojectAtDistance := fun x y => ⟨x, y, 0⟩ }

/-- A bounding box of size 10 by 4 by 2 with a corner at the origin. -/
def sampleBox (K : Type) [LinearOrderedField K] : Box3 K :=
  ⟨⟨0, 0, 0⟩, ⟨10, 4, 2⟩⟩

end Harness

/-! # Theorems -/

/-! ## Closest point on a segment -/

section GeometryTheorems

theorem clamp_minimises (L τ x : ℝ) (hx0 : 0 ≤ x) (hxL : x ≤ L) :
    max 0 (min L τ) * max 0 (min L τ) - 2 * max 0 (min L τ) * τ ≤ x * x - 2 * x * τ := by
  have hL : 0 ≤ L := le_trans hx0 hxL
  rcases le_total τ 0 with h | h
  · have : max 0 (min L τ) = 0 := by
      apply max_eq_left; exact le_trans (min_le_right _ _) h
    rw [this]; nlinarith
  · rcases le_total τ L with h2 | h2
    · have : max 0 (min L τ) = τ := by
        rw [min_eq_right h2, max_eq_right h]
      rw [this]; nlinarith [sq_nonneg (x - τ)]
    · have : max 0 (min L τ) = L := by
        rw [min_eq_left h2, max_eq_right hL]
      rw [this]; nlinarith [mul_nonneg (sub_nonneg.2 hxL) (sub_nonneg.2 h2)]

theorem clamp_range (L τ : ℝ) (hL : 0 ≤ L) :
    0 ≤ max 0 (min L τ) ∧ max 0 (min L τ) ≤ L :=
  ⟨le_max_left _ _, max_le hL (min_le_left _ _)⟩

/-- C1: over the reals, `closestPointOnLineSegment p a b` is a point
`a + (b - a) * s` with `0 ≤ s ≤ 1` of the closed segment `[a, b]`, and its
distance to `p` is at most the distance from `p` to any point of that segment. -/
theorem closestPointOnLineSegment_nearest (p a b : Vector3 ℝ) :
    (∃ s : ℝ, 0 ≤ s ∧ s ≤ 1 ∧
      closestPointOnLineSegment Real.sqrt p a b = Vector3.lerpVectors a b s) ∧
    ∀ s : ℝ, 0 ≤ s → s ≤ 1 →
      Vector3.distanceTo Real.sqrt p (closestPointOnLineSegment Real.sqrt p a b) ≤
        Vector3.distanceTo Real.sqrt p (Vector3.lerpVectors a b s) := by
  obtain ⟨px, py, pz⟩ := p
  obtain ⟨ax, ay, az⟩ := a
  obtain ⟨bx, b_y, bz⟩ := b
  simp only [closestPointOnLineSegment, Vector3.subVectors, Vector3.length, Vector3.normalize,
    Vector3.divideScalar, Vector3.multiplyScalar, Vector3.dot, Vector3.addScaledVector,
    Vector3.lerpVectors, Vector3.distanceTo, Vector3.distanceToSquared]
  set S : ℝ := (bx - ax) * (bx - ax) + (b_y - ay) * (b_y - ay) + (bz - az) * (bz - az) with hS
  have hS0 : 0 ≤ S := by
    have := mul_self_nonneg (bx - ax); have := mul_self_nonneg (b_y - ay); have := mul_self_nonneg (bz - az)
    rw [hS]; linarith
  set L : ℝ := Real.sqrt S with hLdef
  have hL0 : 0 ≤ L := Real.sqrt_nonneg S
  have hLL : L * L = S := Real.mul_self_sqrt hS0
  by_cases hz : L = 0
  · have hSz : S = 0 := by rw [← hLL, hz]; ring
    have h1 : bx - ax = 0 := by nlinarith [mul_self_nonneg (bx - ax), mul_self_nonneg (b_y - ay), mul_self_nonneg (bz - az)]
    have h2 : b_y - ay = 0 := by nlinarith [mul_self_nonneg (bx - ax), mul_self_nonneg (b_y - ay), mul_self_nonneg (bz - az)]
    have h3 : bz - az = 0 := by nlinarith [mul_self_nonneg (bx - ax), mul_self_nonneg (b_y - ay), mul_self_nonneg (bz - az)]
    simp only [hz, if_true, h1, h2, h3]
    constructor
    · exact ⟨0, le_refl 0, zero_le_one, by simp⟩
    · intro s _ _
      simp
  · have hLpos : 0 < L := lt_of_le_of_ne hL0 (Ne.symm hz)
    simp only [hz, if_false]
    set τ : ℝ := (px - ax) * ((bx - ax) * (1 / L)) + (py - ay) * ((b_y - ay) * (1 / L)) +
      (pz - az) * ((bz - az) * (1 / L)) with hτ
    set t : ℝ := max 0 (min L τ) with ht
    obtain ⟨ht0, htL⟩ := clamp_range L τ hL0
    have hunit : ((bx - ax) * (1 / L)) * ((bx - ax) * (1 / L)) +
        ((b_y - ay) * (1 / L)) * ((b_y - ay) * (1 / L)) +
        ((bz - az) * (1 / L)) * ((bz - az) * (1 / L)) = 1 := by
      have : ((bx - ax) * (1 / L)) * ((bx - ax) * (1 / L)) +
        ((b_y - ay) * (1 / L)) * ((b_y - ay) * (1 / L)) +
        ((bz - az) * (1 / L)) * ((bz - az) * (1 / L)) = S / (L * L) := by
        rw [hS]; field_simp
      rw [this, hLL]; exact div_self (by rw [← hLL]; positivity)
    constructor
    · refine ⟨t / L, div_nonneg ht0 hL0, (div_le_one hLpos).2 htL, ?_⟩
      congr 1 <;> field_simp
    · intro s hs0 hs1
      apply Real.sqrt_le_sqrt
      have hx0 : 0 ≤ s * L := mul_nonneg hs0 hL0
      have hxL : s * L ≤ L := by nlinarith
      have key := clamp_minimises L τ (s * L) hx0 hxL
      have e1 : ∀ c : ℝ, (c * (1 / L)) * L = c := by intro c; field_simp
      have lhs : (px - (ax + (bx - ax) * (1 / L) * t)) * (px - (ax + (bx - ax) * (1 / L) * t)) +
          (py - (ay + (b_y - ay) * (1 / L) * t)) * (py - (ay + (b_y - ay) * (1 / L) * t)) +
          (pz - (az + (bz - az) * (1 / L) * t)) * (pz - (az + (bz - az) * (1 / L) * t)) =
          ((px - ax) * (px - ax) + (py - ay) * (py - ay) + (pz - az) * (pz - az)) +
            (t * t - 2 * t * τ) := by
        have : (px - (ax + (bx - ax) * (1 / L) * t)) * (px - (ax + (bx - ax) * (1 / L) * t)) +
          (py - (ay + (b_y - ay) * (1 / L) * t)) * (py - (ay + (b_y - ay) * (1 / L) * t)) +
          (pz - (az + (bz - az) * (1 / L) * t)) * (pz - (az + (bz - az) * (1 / L) * t)) =
          ((px - ax) * (px - ax) + (py - ay) * (py - ay) + (pz - az) * (pz - az)) - 2 * t * τ +
            t * t * (((bx - ax) * (1 / L)) * ((bx - ax) * (1 / L)) +
        ((b_y - ay) * (1 / L)) * ((b_y - ay) * (1 / L)) +
        ((bz - az) * (1 / L)) * ((bz - az) * (1 / L))) := by rw [hτ]; ring
        rw [this, hunit]; ring
      have rhs : (px - (ax + (bx - ax) * s)) * (px - (ax + (bx - ax) * s)) +
          (py - (ay + (b_y - ay) * s)) * (py - (ay + (b_y - ay) * s)) +
          (pz - (az + (bz - az) * s)) * (pz - (az + (bz - az) * s)) =
          ((px - ax) * (px - ax) + (py - ay) * (py - ay) + (pz - az) * (pz - az)) +
            ((s * L) * (s * L) - 2 * (s * L) * τ) := by
        have hx : bx - ax = ((bx - ax) * (1 / L)) * L := (e1 _).symm
        have hy : b_y - ay = ((b_y - ay) * (1 / L)) * L := (e1 _).symm
        have hzz : bz - az = ((bz - az) * (1 / L)) * L := (e1 _).symm
        have : (px - (ax + (bx - ax) * s)) * (px - (ax + (bx - ax) * s)) +
          (py - (ay + (b_y - ay) * s)) * (py - (ay + (b_y - ay) * s)) +
          (pz - (az + (bz - az) * s)) * (pz - (az + (bz - az) * s)) =
          ((px - ax) * (px - ax) + (py - ay) * (py - ay) + (pz - az) * (pz - az))
            - 2 * s * ((px - ax) * (bx - ax) + (py - ay) * (b_y - ay) + (pz - az) * (bz - az))
            + s * s * S := by rw [hS]; ring
        rw [this, ← hLL]
        have hτL : (px - ax) * (bx - ax) + (py - ay) * (b_y - ay) + (pz - az) * (bz - az) = τ * L := by
          rw [hτ]; field_simp
        rw [hτL]; ring
      rw [lhs, rhs]; linarith

/-- Witness for C1: the point `(1, 5, 0)` and the segment from the origin to
`(4, 0, 0)`, compared with the midpoint of the segment. -/
theorem closestPointOnLineSegment_nearest_witness :
    Vector3.distanceTo Real.sqrt ⟨1, 5, 0⟩
        (closestPointOnLineSegment Real.sqrt ⟨1, 5, 0⟩ ⟨0, 0, 0⟩ ⟨4, 0, 0⟩) ≤
      Vector3.distanceTo Real.sqrt ⟨1, 5, 0⟩
        (Vector3.lerpVectors ⟨0, 0, 0⟩ ⟨4, 0, 0⟩ (1 / 2)) :=
  (closestPointOnLineSegment_nearest ⟨1, 5, 0⟩ ⟨0, 0, 0⟩ ⟨4, 0, 0⟩).2 (1 / 2)
    (by norm_num) (by norm_num)

end GeometryTheorems

/-! ## Snap decision of the surface probe -/

section SnapLemmas

variable {K : Type} [LinearOrderedField K]

theorem argmin_foldl {α : Type} (g : α → K) (pt : α → Vector3 K)
    (step : Option (Vector3 K) × WithTop K → α → Option (Vector3 K) × WithTop K)
    (hstep : ∀ acc a, step acc a =
      if (g a : WithTop K) < acc.2 then (some (pt a), (g a : WithTop K)) else acc)
    (l : List α) (acc : Option (Vector3 K) × WithTop K) :
    (l.foldl step acc = acc ∨ ∃ a ∈ l, l.foldl step acc = (some (pt a), (g a : WithTop K))) ∧
      (l.foldl step acc).2 ≤ acc.2 ∧ ∀ a ∈ l, (l.foldl step acc).2 ≤ (g a : WithTop K) := by
  induction l generalizing acc with
  | nil => simp
  | cons b t ih =>
    simp only [List.foldl_cons]
    obtain ⟨h1, h2, h3⟩ := ih (step acc b)
    have hs : (step acc b).2 ≤ acc.2 ∧ (step acc b).2 ≤ (g b : WithTop K) := by
      rw [hstep]
      split_ifs with h
      · exact ⟨le_of_lt h, le_refl _⟩
      · exact ⟨le_refl _, not_lt.1 h⟩
    refine ⟨?_, le_trans h2 hs.1, ?_⟩
    · rcases h1 with h1 | ⟨a, ha, h1⟩
      · rw [h1, hstep]
        split_ifs with h
        · exact Or.inr ⟨b, List.mem_cons_self _ _, rfl⟩
        · exact Or.inl rfl
      · exact Or.inr ⟨a, List.mem_cons_of_mem _ ha, h1⟩
    · intro a ha
      rcases List.mem_cons.1 ha with rfl | ha
      · exact le_trans h2 hs.2
      · exact h3 a ha

theorem argmin_foldl_top {α : Type} (g : α → K) (pt : α → Vector3 K)
    (step : Option (Vector3 K) × WithTop K → α → Option (Vector3 K) × WithTop K)
    (hstep : ∀ acc a, step acc a =
      if (g a : WithTop K) < acc.2 then (some (pt a), (g a : WithTop K)) else acc)
    (l : List α) (hl : l ≠ []) :
    ∃ a ∈ l, l.foldl step (none, ⊤) = (some (pt a), (g a : WithTop K)) ∧
      ∀ b ∈ l, g a ≤ g b := by
  obtain ⟨h1, _, h3⟩ := argmin_foldl g pt step hstep l (none, ⊤)
  obtain ⟨c, hc⟩ := List.exists_mem_of_ne_nil l hl
  rcases h1 with h1 | ⟨a, ha, h1⟩
  · have := h3 c hc
    rw [h1] at this
    simp at this
  · refine ⟨a, ha, h1, fun b hb => ?_⟩
    have := h3 b hb
    rw [h1] at this
    exact WithTop.coe_le_coe.1 this

end SnapLemmas


section SnapTheorems

variable {K : Type} [LinearOrderedField K]

theorem closestVertexLoop_spec (sqrt : K → K) (h : Vector3 K) (f : Face K) :
    ∃ cv ∈ f.vertices,
      closestVertexLoop sqrt h f.vertices =
        (some cv, ((Vector3.distanceTo sqrt h cv : K) : WithTop K)) ∧
      ∀ v ∈ f.vertices, Vector3.distanceTo sqrt h cv ≤ Vector3.distanceTo sqrt h v :=
  argmin_foldl_top (fun v => Vector3.distanceTo sqrt h v) (fun v => v)
    (closestVertexStep sqrt h) (by intro acc a; simp only [closestVertexStep]) f.vertices
    (by simp [Face.vertices])

theorem closestEdgeLoop_spec (sqrt : K → K) (h : Vector3 K) (f : Face K) :
    ∃ e ∈ f.edges,
      closestEdgeLoop sqrt h f.edges =
        (some (closestPointOnLineSegment sqrt h e.1 e.2),
          ((Vector3.distanceTo sqrt h (closestPointOnLineSegment sqrt h e.1 e.2) : K) :
            WithTop K)) ∧
      ∀ e2 ∈ f.edges,
        Vector3.distanceTo sqrt h (closestPointOnLineSegment sqrt h e.1 e.2) ≤
          Vector3.distanceTo sqrt h (closestPointOnLineSegment sqrt h e2.1 e2.2) :=
  argmin_foldl_top
    (fun e : Vector3 K × Vector3 K =>
      Vector3.distanceTo sqrt h (closestPointOnLineSegment sqrt h e.1 e.2))
    (fun e : Vector3 K × Vector3 K => closestPointOnLineSegment sqrt h e.1 e.2)
    (closestEdgeStep sqrt h) (by intro acc a; simp only [closestEdgeStep]) f.edges
    (by simp [Face.edges])

/-- C2: when a model and a ray caster are present and the first hit has a face,
the loops compute a nearest vertex `cv` at distance `dv` and a nearest edge point
`ce` at distance `de`, and `raycastToSurface` returns `cv` if
`dv < T * 0.5`, otherwise `ce` if `de < T`, otherwise the raw hit point, with
`T = 0.5 / modelScaleFactor`; the vertex is returned whenever `dv < T * 0.5`,
whatever `de` is. -/
theorem raycastToSurface_snap_decision (sqrt : K → K) (sc : Scene K) (modelScaleFactor : K)
    (screenX screenY : K) (hit : Intersection K) (rest : List (Intersection K)) (f : Face K)
    (hm : sc.currentModel = true) (hr : sc.raycaster = true)
    (hi : sc.intersectObject (ndcX sc screenX) (ndcY sc screenY) = hit :: rest)
    (hf : hit.face = some f) :
    ∃ cv ce : Vector3 K, ∃ dv de : K,
      (cv ∈ f.vertices ∧ dv = Vector3.distanceTo sqrt hit.point cv ∧
        ∀ v ∈ f.vertices, dv ≤ Vector3.distanceTo sqrt hit.point v) ∧
      ((∃ e ∈ f.edges, ce = closestPointOnLineSegment sqrt hit.point e.1 e.2) ∧
        de = Vector3.distanceTo sqrt hit.point ce ∧
        ∀ e ∈ f.edges, de ≤
          Vector3.distanceTo sqrt hit.point (closestPointOnLineSegment sqrt hit.point e.1 e.2)) ∧
      closestVertexLoop sqrt hit.point f.vertices = (some cv, (dv : WithTop K)) ∧
      closestEdgeLoop sqrt hit.point f.edges = (some ce, (de : WithTop K)) ∧
      raycastToSurface sqrt sc modelScaleFactor screenX screenY =
        some (if dv < 0.5 / modelScaleFactor * 0.5 then cv
          else if de < 0.5 / modelScaleFactor then ce
          else hit.point) ∧
      (dv < 0.5 / modelScaleFactor * 0.5 →
        raycastToSurface sqrt sc modelScaleFactor screenX screenY = some cv) := by
  obtain ⟨cv, hcv, hcvl, hcvmin⟩ := closestVertexLoop_spec sqrt hit.point f
  obtain ⟨e, he, hel, hemin⟩ := closestEdgeLoop_spec sqrt hit.point f
  have hres : raycastToSurface sqrt sc modelScaleFactor screenX screenY =
      some (if Vector3.distanceTo sqrt hit.point cv < 0.5 / modelScaleFactor * 0.5 then cv
        else if Vector3.distanceTo sqrt hit.point
            (closestPointOnLineSegment sqrt hit.point e.1 e.2) < 0.5 / modelScaleFactor then
          closestPointOnLineSegment sqrt hit.point e.1 e.2
        else hit.point) := by
    simp only [raycastToSurface, hm, hr, hi, hf, snapDecision, hcvl, hel, WithTop.coe_lt_coe,
      Bool.not_true, Bool.or_self, Bool.false_eq_true, if_false]
    split_ifs <;> rfl
  refine ⟨cv, closestPointOnLineSegment sqrt hit.point e.1 e.2, _, _,
    ⟨hcv, rfl, hcvmin⟩, ⟨⟨e, he, rfl⟩, rfl, hemin⟩, hcvl, hel, hres, ?_⟩
  intro hlt
  rw [hres, if_pos hlt]

end SnapTheorems

section SnapWitness

/-- Witness for C2: the sample scene, whose hit point is within a quarter unit
of the vertex at the origin and lies on an edge. -/
theorem raycastToSurface_snap_decision_witness :
    ∃ cv ce : Vector3 ℚ, ∃ dv de : ℚ,
      (cv ∈ (Face.mk (⟨0, 0, 0⟩ : Vector3 ℚ) ⟨4, 0, 0⟩ ⟨0, 4, 0⟩).vertices ∧
        dv = Vector3.distanceTo ratSqrt ⟨1 / 10, 0, 0⟩ cv ∧
        ∀ v ∈ (Face.mk (⟨0, 0, 0⟩ : Vector3 ℚ) ⟨4, 0, 0⟩ ⟨0, 4, 0⟩).vertices,
          dv ≤ Vector3.distanceTo ratSqrt ⟨1 / 10, 0, 0⟩ v) ∧
      ((∃ e ∈ (Face.mk (⟨0, 0, 0⟩ : Vector3 ℚ) ⟨4, 0, 0⟩ ⟨0, 4, 0⟩).edges,
          ce = closestPointOnLineSegment ratSqrt ⟨1 / 10, 0, 0⟩ e.1 e.2) ∧
        de = Vector3.distanceTo ratSqrt ⟨1 / 10, 0, 0⟩ ce ∧
        ∀ e ∈ (Face.mk (⟨0, 0, 0⟩ : Vector3 ℚ) ⟨4, 0, 0⟩ ⟨0, 4, 0⟩).edges, de ≤
          Vector3.distanceTo ratSqrt ⟨1 / 10, 0, 0⟩
            (closestPointOnLineSegment ratSqrt ⟨1 / 10, 0, 0⟩ e.1 e.2)) ∧
      closestVertexLoop ratSqrt ⟨1 / 10, 0, 0⟩
          (Face.mk (⟨0, 0, 0⟩ : Vector3 ℚ) ⟨4, 0, 0⟩ ⟨0, 4, 0⟩).vertices =
        (some cv, (dv : WithTop ℚ)) ∧
      closestEdgeLoop ratSqrt ⟨1 / 10, 0, 0⟩
          (Face.mk (⟨0, 0, 0⟩ : Vector3 ℚ) ⟨4, 0, 0⟩ ⟨0, 4, 0⟩).edges =
        (some ce, (de : WithTop ℚ)) ∧
      raycastToSurface ratSqrt sampleScene 1 400 300 =
        some (if dv < 0.5 / 1 * 0.5 then cv else if de < 0.5 / 1 then ce else ⟨1 / 10, 0, 0⟩) ∧
      (dv < 0.5 / 1 * 0.5 → raycastToSurface ratSqrt sampleScene 1 400 300 = some cv) :=
  raycastToSurface_snap_decision ratSqrt sampleScene 1 400 300
    { point := ⟨1 / 10, 0, 0⟩, face := some ⟨⟨0, 0, 0⟩, ⟨4, 0, 0⟩, ⟨0, 4, 0⟩⟩ } []
    ⟨⟨0, 0, 0⟩, ⟨4, 0, 0⟩, ⟨0, 4, 0⟩⟩ rfl rfl rfl rfl

end SnapWitness

/-! ## Distance formatter -/

section FormatLemmas

variable {K : Type} [LinearOrderedField K] [FloorRing K]

theorem halveLoop_succ (fuel : Nat) (num den : Int) (r : Int × Int)
    (h : halveLoop fuel num den = some r) : halveLoop (fuel + 1) num den = some r := by
  induction fuel generalizing num den with
  | zero => simp [halveLoop] at h
  | succ n ih =>
    rw [halveLoop] at h
    rw [halveLoop]
    split_ifs at h with hc
    · rw [if_pos hc]; exact ih _ _ h
    · rw [if_neg hc]; exact h

theorem halveLoop_mono (fuel extra : Nat) (num den : Int) (r : Int × Int)
    (h : halveLoop fuel num den = some r) : halveLoop (fuel + extra) num den = some r := by
  induction extra with
  | zero => exact h
  | succ n ih => exact halveLoop_succ _ _ _ _ ih

theorem halveLoop_sixteen (fuel : Nat) (hfuel : 4 ≤ fuel) (k : Int) (h1 : 1 ≤ k) (h15 : k ≤ 15) :
    ∃ num den : Int, halveLoop fuel k 16 = some (num, den) ∧ num * 16 = k * den ∧
      num % 2 = 1 ∧ (den = 2 ∨ den = 4 ∨ den = 8 ∨ den = 16) := by
  obtain ⟨m, rfl⟩ := Nat.exists_eq_add_of_le hfuel
  have key : ∃ num den : Int, halveLoop 4 k 16 = some (num, den) ∧ num * 16 = k * den ∧
      num % 2 = 1 ∧ (den = 2 ∨ den = 4 ∨ den = 8 ∨ den = 16) := by
    interval_cases k <;> exact ⟨_, _, rfl, by decide, by decide, by decide⟩
  obtain ⟨num, den, h, rest⟩ := key
  exact ⟨num, den, halveLoop_mono 4 m k 16 _ h, rest⟩

theorem fract_sixteenths_range (x : K) :
    0 ≤ mathRound ((x - ((⌊x⌋ : Int) : K)) * 16) ∧
      mathRound ((x - ((⌊x⌋ : Int) : K)) * 16) ≤ 16 := by
  have h0 : 0 ≤ x - ((⌊x⌋ : Int) : K) := sub_nonneg.2 (Int.floor_le x)
  have h1 : x - ((⌊x⌋ : Int) : K) < 1 := by
    have := Int.lt_floor_add_one x; linarith
  constructor
  · apply Int.floor_nonneg.2; linarith
  · have : mathRound ((x - ((⌊x⌋ : Int) : K)) * 16) < 17 := by
      apply Int.floor_lt.2
      push_cast; linarith
    omega

theorem mathRound_near (y : K) :
    ((mathRound y : Int) : K) - 1 / 2 ≤ y ∧ y < ((mathRound y : Int) : K) + 1 / 2 := by
  constructor
  · have := Int.floor_le (y + 1 / 2); unfold mathRound; linarith
  · have := Int.lt_floor_add_one (y + 1 / 2); unfold mathRound; linarith

theorem inchesToFraction_fraction (fuel : Nat) (hfuel : 4 ≤ fuel) (x : K)
    (h0 : mathRound ((x - ((⌊x⌋ : Int) : K)) * 16) ≠ 0)
    (h16 : mathRound ((x - ((⌊x⌋ : Int) : K)) * 16) ≠ 16) :
    ∃ num den : Int,
      halveLoop fuel (mathRound ((x - ((⌊x⌋ : Int) : K)) * 16)) 16 = some (num, den) ∧
      num * 16 = mathRound ((x - ((⌊x⌋ : Int) : K)) * 16) * den ∧
      num % 2 = 1 ∧ (den = 2 ∨ den = 4 ∨ den = 8 ∨ den = 16) ∧
      inchesToFraction fuel x =
        some (if ⌊x⌋ > 0 then toString ⌊x⌋ ++ " " ++ toString num ++ "/" ++ toString den
          else toString num ++ "/" ++ toString den) := by
  obtain ⟨hlo, hhi⟩ := fract_sixteenths_range x
  obtain ⟨num, den, hl, hval, hodd, hden⟩ :=
    halveLoop_sixteen fuel hfuel (mathRound ((x - ((⌊x⌋ : Int) : K)) * 16)) (by omega) (by omega)
  refine ⟨num, den, hl, hval, hodd, hden, ?_⟩
  simp only [inchesToFraction, if_neg h0, if_neg h16, hl]

theorem toFixed_nonneg (x : K) (hx : 0 ≤ x) (f : Nat) :
    ∃ n : Nat, ((n : K) - 1 / 2 ≤ x * 10 ^ f ∧ x * 10 ^ f < (n : K) + 1 / 2) ∧
      toFixed x f = fixedPoint n f := by
  have hy : 0 ≤ x * 10 ^ f + 1 / 2 := by positivity
  refine ⟨⌊x * 10 ^ f + 1 / 2⌋₊, ⟨?_, ?_⟩, ?_⟩
  · have := Nat.floor_le hy; linarith
  · have := Nat.lt_floor_add_one (x * 10 ^ f + 1 / 2); linarith
  · simp only [toFixed, if_neg (not_lt.2 hx)]
    exact String.empty_append _

theorem fmod_twelve (t : K) (ht : 0 ≤ t) :
    fmod t 12 = t - 12 * ((⌊t / 12⌋ : Int) : K) ∧
      0 ≤ t - 12 * ((⌊t / 12⌋ : Int) : K) ∧ t - 12 * ((⌊t / 12⌋ : Int) : K) < 12 := by
  have h0 : 0 ≤ t / 12 := by positivity
  refine ⟨by simp only [fmod, if_pos h0], ?_, ?_⟩
  · have := Int.floor_le (t / 12)
    have h2 : t = t / 12 * 12 := by ring
    linarith
  · have := Int.lt_floor_add_one (t / 12)
    have h2 : t = t / 12 * 12 := by ring
    linarith

theorem inchesToFraction_total (fuel : Nat) (hfuel : 4 ≤ fuel) (x : K) :
    ∃ s, inchesToFraction fuel x = some s := by
  by_cases h0 : mathRound ((x - ((⌊x⌋ : Int) : K)) * 16) = 0
  · refine ⟨if ⌊x⌋ > 0 then toString ⌊x⌋ else "0", ?_⟩
    simp only [inchesToFraction, h0, if_true]
  · by_cases h16 : mathRound ((x - ((⌊x⌋ : Int) : K)) * 16) = 16
    · refine ⟨toString (⌊x⌋ + 1), ?_⟩
      simp only [inchesToFraction, h16]
      rfl
    · obtain ⟨num, den, _, _, _, _, h⟩ := inchesToFraction_fraction fuel hfuel x h0 h16
      exact ⟨_, h⟩

theorem formatDistance_metric_fuel (fuel : Nat) (d : K) :
    formatDistance fuel true d = formatDistance 0 true d := by
  simp only [formatDistance, if_true]

theorem inchesToFraction_fuel (fuel : Nat) (hfuel : 4 ≤ fuel) (x : K) :
    inchesToFraction fuel x = inchesToFraction 4 x := by
  by_cases h0 : mathRound ((x - ((⌊x⌋ : Int) : K)) * 16) = 0
  · simp only [inchesToFraction, h0, if_true]
  · by_cases h16 : mathRound ((x - ((⌊x⌋ : Int) : K)) * 16) = 16
    · simp only [inchesToFraction, h16]; rfl
    · obtain ⟨num, den, h1, _, _, _, h⟩ := inchesToFraction_fraction fuel hfuel x h0 h16
      obtain ⟨num2, den2, h2, _, _, _, h4⟩ := inchesToFraction_fraction 4 (le_refl 4) x h0 h16
      obtain ⟨m, rfl⟩ := Nat.exists_eq_add_of_le hfuel
      have := halveLoop_mono 4 m _ _ _ h2
      rw [h1] at this
      cases this
      rw [h, h4]

theorem formatDistance_fuel (fuel : Nat) (hfuel : 4 ≤ fuel) (m : Bool) (d : K) :
    formatDistance fuel m d = formatDistance 4 m d := by
  simp only [formatDistance, inchesToFraction_fuel fuel hfuel]

theorem padStart_two_digits (r : Nat) (hr : r < 100) :
    padStart 2 (toString r) = String.mk [Nat.digitChar (r / 10), Nat.digitChar (r % 10)] := by
  interval_cases r <;> rfl

theorem padStart_one_digit (r : Nat) (hr : r < 10) :
    padStart 1 (toString r) = String.mk [Nat.digitChar r] := by
  interval_cases r <;> rfl

theorem fixedPoint_two (n : Nat) :
    fixedPoint n 2 =
      toString (n / 100) ++ "." ++
        String.mk [Nat.digitChar (n / 10 % 10), Nat.digitChar (n % 10)] := by
  have h := padStart_two_digits (n % 100) (Nat.mod_lt _ (by norm_num))
  have e1 : n % 100 / 10 = n / 10 % 10 := by omega
  have e2 : n % 100 % 10 = n % 10 := by omega
  rw [e1, e2] at h
  simp only [fixedPoint]
  rw [if_neg (by norm_num)]
  norm_num
  rw [h]

theorem fixedPoint_one (n : Nat) :
    fixedPoint n 1 = toString (n / 10) ++ "." ++ String.mk [Nat.digitChar (n % 10)] := by
  have h := padStart_one_digit (n % 10) (Nat.mod_lt _ (by norm_num))
  simp only [fixedPoint]
  rw [if_neg (by norm_num)]
  norm_num
  rw [h]

end FormatLemmas

section FormatTheorems

variable {K : Type} [LinearOrderedField K] [FloorRing K]

/-- C5: for an inch value `x ≥ 0` with `w = floor x` and
`k = round ((x - w) * 16)`, and a loop bound of at least four: for `k = 0` the
inch text is the numeral of `w` (the text `0` when `w = 0`); for `k = 16` it is
the numeral of `w + 1`; otherwise it is the mixed number `w num/den` (or
`num/den` when `w = 0`) with `w + num / den = w + k / 16`; and `w + k / 16` is
`x` rounded to the nearest sixteenth. -/
theorem inchesToFraction_nearest_sixteenth (fuel : Nat) (hfuel : 4 ≤ fuel) (x : K)
    (hx : 0 ≤ x) (w k : Int) (hw : w = ⌊x⌋) (hk : k = mathRound ((x - (w : K)) * 16)) :
    (k = 0 → inchesToFraction fuel x = some (toString w) ∧
      (w = 0 → inchesToFraction fuel x = some "0")) ∧
    (k = 16 → inchesToFraction fuel x = some (toString (w + 1))) ∧
    (k ≠ 0 → k ≠ 16 → ∃ num den : Int, 0 < den ∧
      inchesToFraction fuel x =
        some (if w > 0 then toString w ++ " " ++ toString num ++ "/" ++ toString den
          else toString num ++ "/" ++ toString den) ∧
      (w : K) + (num : K) / (den : K) = (w : K) + (k : K) / 16) ∧
    (0 ≤ k ∧ k ≤ 16 ∧ (w : K) + (k : K) / 16 - 1 / 32 ≤ x ∧ x < (w : K) + (k : K) / 16 + 1 / 32) := by
  subst hw
  have hw0 : (0 : Int) ≤ ⌊x⌋ := Int.floor_nonneg.2 hx
  refine ⟨?_, ?_, ?_, ?_⟩
  · intro hk0
    have hk0' : mathRound ((x - ((⌊x⌋ : Int) : K)) * 16) = 0 := by rw [← hk]; exact hk0
    have : inchesToFraction fuel x = some (toString ⌊x⌋) := by
      simp only [inchesToFraction, hk0', if_true]
      by_cases hp : ⌊x⌋ > 0
      · rw [if_pos hp]
      · rw [if_neg hp]
        have : ⌊x⌋ = 0 := by omega
        rw [this]; rfl
    refine ⟨this, fun hz => ?_⟩
    rw [this, hz]; rfl
  · intro hk16
    have hk16' : mathRound ((x - ((⌊x⌋ : Int) : K)) * 16) = 16 := by rw [← hk]; exact hk16
    simp only [inchesToFraction, hk16']
    rfl
  · intro hk0 hk16
    obtain ⟨num, den, _, hval, _, hden, htext⟩ :=
      inchesToFraction_fraction fuel hfuel x (by rw [← hk]; exact hk0) (by rw [← hk]; exact hk16)
    have hdpos : 0 < den := by rcases hden with h | h | h | h <;> omega
    refine ⟨num, den, hdpos, htext, ?_⟩
    have hdK : (den : K) ≠ 0 := by exact_mod_cast (ne_of_gt hdpos)
    have hvalK : (num : K) * 16 = (k : K) * (den : K) := by
      rw [hk]; exact_mod_cast hval
    congr 1
    field_simp
    linarith
  · obtain ⟨hlo, hhi⟩ := fract_sixteenths_range x
    obtain ⟨hn1, hn2⟩ := mathRound_near ((x - ((⌊x⌋ : Int) : K)) * 16)
    rw [← hk] at hlo hhi hn1 hn2
    refine ⟨hlo, hhi, ?_, ?_⟩ <;> linarith

/-- C6: when the fractional part rounds to `k` sixteenths with `1 ≤ k ≤ 15`,
the halving loop started at `k / 16` ends within four condition tests with a
pair `num / den` such that `num * 16 = k * den`, `num` is odd and `den` is one
of 2, 4, 8, 16, and that pair is the fraction `inchesToFraction` prints. -/
theorem inchesToFraction_lowest_terms (fuel : Nat) (hfuel : 4 ≤ fuel) (x : K) (k : Int)
    (hk : k = mathRound ((x - ((⌊x⌋ : Int) : K)) * 16)) (h1 : 1 ≤ k) (h15 : k ≤ 15) :
    ∃ num den : Int,
      halveLoop fuel k 16 = some (num, den) ∧
      num * 16 = k * den ∧ num % 2 = 1 ∧ (den = 2 ∨ den = 4 ∨ den = 8 ∨ den = 16) ∧
      inchesToFraction fuel x =
        some (if ⌊x⌋ > 0 then toString ⌊x⌋ ++ " " ++ toString num ++ "/" ++ toString den
          else toString num ++ "/" ++ toString den) := by
  subst hk
  exact inchesToFraction_fraction fuel hfuel x (by omega) (by omega)

/-- C3: with the metric preference on and `d ≥ 0`, `formatDistance d` is, for
`1 ≤ d < 10 ^ 21` (the range in which `toFixed` uses fixed notation), the numeral
of the integer `n` nearest to `100 d` (ties upwards) written with two decimals:
the digits of `n / 100`, a point, the tens digit and the units digit of `n`,
followed by ` m`; for `0.01 ≤ d < 1` the numeral of the integer `n` nearest to
`1000 d` written with one decimal: the digits of `n / 10`, a point and the units
digit of `n`, followed by ` cm`; and for `d < 0.01` the same with the integer
nearest to `10000 d`, followed by ` mm`. The sample inputs `0.5`, `1.5`, `0.005`
and `0.999999` give `50.0 cm`, `1.50 m`, `5.0 mm` and `100.0 cm`; `1.05` and
`20.07` give `1.05 m` and `20.07 m`. -/
theorem formatDistance_metric (fuel : Nat) (d : K) (hd : 0 ≤ d) :
    (1 ≤ d → d < 10 ^ 21 →
      ∃ n : Nat, ((n : K) - 1 / 2 ≤ d * 100 ∧ d * 100 < (n : K) + 1 / 2) ∧
        formatDistance fuel true d =
          some (toString (n / 100) ++ "." ++
            String.mk [Nat.digitChar (n / 10 % 10), Nat.digitChar (n % 10)] ++ " m")) ∧
    (1 / 100 ≤ d → d < 1 →
      ∃ n : Nat, ((n : K) - 1 / 2 ≤ d * 1000 ∧ d * 1000 < (n : K) + 1 / 2) ∧
        formatDistance fuel true d =
          some (toString (n / 10) ++ "." ++ String.mk [Nat.digitChar (n % 10)] ++ " cm")) ∧
    (d < 1 / 100 →
      ∃ n : Nat, ((n : K) - 1 / 2 ≤ d * 10000 ∧ d * 10000 < (n : K) + 1 / 2) ∧
        formatDistance fuel true d =
          some (toString (n / 10) ++ "." ++ String.mk [Nat.digitChar (n % 10)] ++ " mm")) ∧
    formatDistance fuel true (0.5 : ℚ) = some "50.0 cm" ∧
    formatDistance fuel true (1.5 : ℚ) = some "1.50 m" ∧
    formatDistance fuel true (0.005 : ℚ) = some "5.0 mm" ∧
    formatDistance fuel true (0.999999 : ℚ) = some "100.0 cm" ∧
    formatDistance fuel true (1.05 : ℚ) = some "1.05 m" ∧
    formatDistance fuel true (20.07 : ℚ) = some "20.07 m" := by
  have hlit : (0.01 : K) = 1 / 100 := by norm_num
  refine ⟨?_, ?_, ?_, ?_, ?_, ?_, ?_, ?_, ?_⟩
  · intro h1 _
    obtain ⟨n, hn, ht⟩ := toFixed_nonneg d hd 2
    have e : d * 10 ^ 2 = d * 100 := by norm_num
    rw [e] at hn
    refine ⟨n, hn, ?_⟩
    simp only [formatDistance, if_true, ge_iff_le, if_pos h1, ht, fixedPoint_two]
  · intro h1 h2
    obtain ⟨n, hn, ht⟩ := toFixed_nonneg (d * 100) (by positivity) 1
    have e : d * 100 * 10 ^ 1 = d * 1000 := by ring
    rw [e] at hn
    refine ⟨n, hn, ?_⟩
    simp only [formatDistance, if_true, ge_iff_le, if_neg (not_le.2 h2), hlit, if_pos h1, ht,
      fixedPoint_one]
  · intro h1
    obtain ⟨n, hn, ht⟩ := toFixed_nonneg (d * 1000) (by positivity) 1
    have e : d * 1000 * 10 ^ 1 = d * 10000 := by ring
    rw [e] at hn
    refine ⟨n, hn, ?_⟩
    have h2 : ¬ (1 ≤ d) := by
      intro h; have : (1 : K) / 100 < 1 := by norm_num
      linarith
    simp only [formatDistance, if_true, ge_iff_le, if_neg h2, hlit, if_neg (not_le.2 h1), ht,
      fixedPoint_one]
  · rw [formatDistance_metric_fuel]; decide!
  · rw [formatDistance_metric_fuel]; decide!
  · rw [formatDistance_metric_fuel]; decide!
  · rw [formatDistance_metric_fuel]; decide!
  · rw [formatDistance_metric_fuel]; decide!
  · rw [formatDistance_metric_fuel]; decide!

/-- C4: with the metric preference off, `d ≥ 0`, `t = d * 39.3701` and a loop
bound of at least four: for `t ≥ 12` the remainder `t - 12 * floor (t / 12)`
lies in `[0, 12)`, the result is the numeral of `floor (t / 12)` and the foot
mark, and the inches term (a space, the inch text of the remainder, the inch
mark) follows exactly when the remainder is at least `1 / 32`; for `t < 12` the
result is the inch text of `t` and the inch mark. -/
theorem formatDistance_imperial (fuel : Nat) (hfuel : 4 ≤ fuel) (d t : K) (hd : 0 ≤ d)
    (ht : t = d * 39.3701) :
    (12 ≤ t →
      (0 ≤ t - 12 * ((⌊t / 12⌋ : Int) : K) ∧ t - 12 * ((⌊t / 12⌋ : Int) : K) < 12) ∧
      (t - 12 * ((⌊t / 12⌋ : Int) : K) < 1 / 32 →
        formatDistance fuel false d = some (toString ⌊t / 12⌋ ++ "'")) ∧
      (1 / 32 ≤ t - 12 * ((⌊t / 12⌋ : Int) : K) →
        ∃ s, inchesToFraction fuel (t - 12 * ((⌊t / 12⌋ : Int) : K)) = some s ∧
          formatDistance fuel false d = some (toString ⌊t / 12⌋ ++ "' " ++ s ++ "\""))) ∧
    (t < 12 →
      ∃ s, inchesToFraction fuel t = some s ∧
        formatDistance fuel false d = some (s ++ "\"")) := by
  have hlit : (0.03125 : K) = 1 / 32 := by norm_num
  have ht0 : 0 ≤ t := by rw [ht]; positivity
  obtain ⟨hmod, hr0, hr12⟩ := fmod_twelve t ht0
  constructor
  · intro h12
    refine ⟨⟨hr0, hr12⟩, ?_, ?_⟩
    · intro hsmall
      simp only [formatDistance, Bool.false_eq_true, if_false, ← ht, ge_iff_le, if_pos h12,
        hmod, hlit, if_pos hsmall]
    · intro hbig
      obtain ⟨s, hs⟩ := inchesToFraction_total fuel hfuel (t - 12 * ((⌊t / 12⌋ : Int) : K))
      refine ⟨s, hs, ?_⟩
      simp only [formatDistance, Bool.false_eq_true, if_false, ← ht, ge_iff_le, if_pos h12,
        hmod, hlit, if_neg (not_lt.2 hbig), hs, Option.map_some']
  · intro hlt
    obtain ⟨s, hs⟩ := inchesToFraction_total fuel hfuel t
    refine ⟨s, hs, ?_⟩
    simp only [formatDistance, Bool.false_eq_true, if_false, ← ht, ge_iff_le,
      if_neg (not_le.2 hlt), hs, Option.map_some']

/-- C7: with the metric preference off and a loop bound of at least four, an
input whose inch value `d * 39.3701` is exactly `12.5` is formatted as one foot,
a space, the fraction `1/2` and the inch mark. -/
theorem formatDistance_one_foot_half_inch (fuel : Nat) (hfuel : 4 ≤ fuel) (d : K)
    (h : d * 39.3701 = 12.5) : formatDistance fuel false d = some "1' 1/2\"" := by
  rw [formatDistance_fuel fuel hfuel]
  have hfloor : (⌊(12.5 : K) / 12⌋ : Int) = 1 := by
    rw [Int.floor_eq_iff]; constructor <;> norm_num
  have hmod : fmod (12.5 : K) 12 = 0.5 := by
    have h0 : (0 : K) ≤ 12.5 / 12 := by norm_num
    simp only [fmod, if_pos h0, hfloor]; norm_num
  have hfl2 : (⌊(0.5 : K)⌋ : Int) = 0 := by
    rw [Int.floor_eq_iff]; constructor <;> norm_num
  have hround : mathRound (((0.5 : K) - ((0 : Int) : K)) * 16) = 8 := by
    unfold mathRound
    rw [Int.floor_eq_iff]; constructor <;> norm_num
  have hinch : inchesToFraction 4 (0.5 : K) = some "1/2" := by
    simp only [inchesToFraction, hfl2, hround]
    rfl
  have h12 : (12.5 : K) ≥ 12 := by norm_num
  have hnot : ¬ ((0.5 : K) < 0.03125) := by norm_num
  simp only [formatDistance, Bool.false_eq_true, if_false, h, if_pos h12, hfloor, hmod,
    if_neg hnot, hinch, Option.map_some']
  rfl

/-- C8, counterexample: with the metric preference off, `formatDistance 0.0254`
is the text `1` followed by the inch mark, which is not the text `1`. -/
theorem formatDistance_one_inch_counterexample :
    formatDistance 4 false (0.0254 : ℚ) = some "1\"" ∧
      formatDistance 4 false (0.0254 : ℚ) ≠ some "1" := by
  constructor <;> decide!

/-- C8, amended: with the metric preference off and a loop bound of at least
four, `formatDistance 0.0254` is the whole inch `1`, without a fraction,
followed by the inch mark. -/
theorem formatDistance_one_inch (fuel : Nat) (hfuel : 4 ≤ fuel) :
    formatDistance fuel false (0.0254 : ℚ) = some "1\"" := by
  rw [formatDistance_fuel fuel hfuel]; decide!

/-- Witness for C8: loop bound seven. -/
theorem formatDistance_one_inch_witness : formatDistance 7 false (0.0254 : ℚ) = some "1\"" :=
  formatDistance_one_inch 7 (by decide)

/-- Witness for C3: the distance `1.05`, whose numeral needs a zero after the
point. -/
theorem formatDistance_metric_witness :
    ∃ n : Nat, (((n : ℚ) - 1 / 2 ≤ 1.05 * 100 ∧ (1.05 : ℚ) * 100 < (n : ℚ) + 1 / 2) ∧
      formatDistance 4 true (1.05 : ℚ) =
        some (toString (n / 100) ++ "." ++
          String.mk [Nat.digitChar (n / 10 % 10), Nat.digitChar (n % 10)] ++ " m")) :=
  (formatDistance_metric 4 (1.05 : ℚ) (by norm_num)).1 (by norm_num) (by norm_num)

/-- Witness for C4: one metre, `39.3701` inches. -/
theorem formatDistance_imperial_witness :
    ∃ s, inchesToFraction 4 ((39.3701 : ℚ) - 12 * ((⌊(39.3701 : ℚ) / 12⌋ : Int) : ℚ)) = some s ∧
      formatDistance 4 false (1 : ℚ) =
        some (toString ⌊(39.3701 : ℚ) / 12⌋ ++ "' " ++ s ++ "\"") :=
  ((formatDistance_imperial 4 (le_refl 4) (1 : ℚ) 39.3701 (by norm_num) (by norm_num)).1
    (by norm_num)).2.2 (by decide!)

/-- Witness for C5: `6.03125` inches, whose fractional part rounds to one
sixteenth. -/
theorem inchesToFraction_nearest_sixteenth_witness :
    ∃ num den : Int, 0 < den ∧
      inchesToFraction 4 (6.03125 : ℚ) =
        some (if (6 : Int) > 0 then
            toString (6 : Int) ++ " " ++ toString num ++ "/" ++ toString den
          else toString num ++ "/" ++ toString den) ∧
      ((6 : Int) : ℚ) + (num : ℚ) / (den : ℚ) = ((6 : Int) : ℚ) + ((1 : Int) : ℚ) / 16 :=
  (inchesToFraction_nearest_sixteenth 4 (le_refl 4) (6.03125 : ℚ) (by norm_num) 6 1
    (by decide!) (by decide!)).2.2.1 (by decide) (by decide)

/-- Witness for C6: `2.75` inches, twelve sixteenths. -/
theorem inchesToFraction_lowest_terms_witness :
    ∃ num den : Int,
      halveLoop 4 12 16 = some (num, den) ∧
      num * 16 = 12 * den ∧ num % 2 = 1 ∧ (den = 2 ∨ den = 4 ∨ den = 8 ∨ den = 16) ∧
      inchesToFraction 4 (2.75 : ℚ) =
        some (if ⌊(2.75 : ℚ)⌋ > 0 then
            toString ⌊(2.75 : ℚ)⌋ ++ " " ++ toString num ++ "/" ++ toString den
          else toString num ++ "/" ++ toString den) :=
  inchesToFraction_lowest_terms 4 (le_refl 4) (2.75 : ℚ) 12 (by decide!) (by decide) (by decide)

/-- Witness for C7: the distance `125000 / 393701`. -/
theorem formatDistance_one_foot_half_inch_witness :
    formatDistance 4 false (125000 / 393701 : ℚ) = some "1' 1/2\"" :=
  formatDistance_one_foot_half_inch 4 (le_refl 4) (125000 / 393701 : ℚ) (by norm_num)

end FormatTheorems

/-! ## Model scale and the distance a label shows -/

section ScaleTheorems

theorem sqrt_scaled_sum (s x y z : ℝ) (hs : 0 ≤ s) :
    Real.sqrt ((s * x) * (s * x) + (s * y) * (s * y) + (s * z) * (s * z)) =
      s * Real.sqrt (x * x + y * y + z * z) := by
  have : (s * x) * (s * x) + (s * y) * (s * y) + (s * z) * (s * z) =
      (s * s) * (x * x + y * y + z * z) := by ring
  rw [this, Real.sqrt_mul (mul_self_nonneg s), Real.sqrt_mul_self hs]

theorem maxDim_of_pos (box : Box3 ℝ) (hmax : 0 < maxDim box) :
    box.isEmpty = false ∧
      box.getSize = ⟨box.max.x - box.min.x, box.max.y - box.min.y, box.max.z - box.min.z⟩ ∧
      box.getCenter = ⟨(box.min.x + box.max.x) * 0.5, (box.min.y + box.max.y) * 0.5,
        (box.min.z + box.max.z) * 0.5⟩ ∧
      maxDim box =
        max (max (box.max.x - box.min.x) (box.max.y - box.min.y)) (box.max.z - box.min.z) := by
  have hne : box.isEmpty = false := by
    cases he : box.isEmpty with
    | false => rfl
    | true =>
      have : maxDim box = 0 := by
        simp [maxDim, Box3.getSize, he]
      rw [this] at hmax
      exact absurd hmax (lt_irrefl 0)
  have hsize : box.getSize =
      ⟨box.max.x - box.min.x, box.max.y - box.min.y, box.max.z - box.min.z⟩ := by
    simp [Box3.getSize, hne, Vector3.subVectors]
  refine ⟨hne, hsize, ?_, ?_⟩
  · simp [Box3.getCenter, hne, Vector3.multiplyScalar, Vector3.addVectors]
  · simp only [maxDim, hsize]

/-- C9: for a bounding box with `maxDim > 0`, the box is not empty, `maxDim` is
the largest of the three extents `max - min`, and `finalizeModel` sets
`modelScaleFactor = 5 / maxDim`, which is positive; every extent times the
factor is at most 5 and one of them is exactly 5; the centre is the midpoint of
the box; a root object at the origin with unit scale maps every point `p` to
`(p - centre) * modelScaleFactor`; and for world points `wa`, `wb` that are the
images of `a`, `b` under that map, the distance the label formats,
`(|wa - wb| / modelScaleFactor) * modelUnitConversion`, is
`|a - b| * modelUnitConversion`. -/
theorem finalizeModel_distance_invariant (currentFileType : String) (box : Box3 ℝ)
    (model : Object3D ℝ) (hmax : 0 < maxDim box) (a b wa wb : Vector3 ℝ)
    (hwa : wa = Vector3.multiplyScalar (Vector3.subVectors a box.getCenter)
      (finalizeModel currentFileType box model).modelScaleFactor)
    (hwb : wb = Vector3.multiplyScalar (Vector3.subVectors b box.getCenter)
      (finalizeModel currentFileType box model).modelScaleFactor) :
    (finalizeModel currentFileType box model).modelScaleFactor = 5 / maxDim box ∧
    0 < (finalizeModel currentFileType box model).modelScaleFactor ∧
    maxDim box * (finalizeModel currentFileType box model).modelScaleFactor = 5 ∧
    (∀ p : Vector3 ℝ,
      (finalizeModel currentFileType box Object3D.identity).model.localToWorld p =
        Vector3.multiplyScalar (Vector3.subVectors p box.getCenter)
          (finalizeModel currentFileType box Object3D.identity).modelScaleFactor) ∧
    originalDistance Real.sqrt (finalizeModel currentFileType box model).modelScaleFactor
        (finalizeModel currentFileType box model).modelUnitConversion wa wb =
      Vector3.distanceTo Real.sqrt a b *
        (finalizeModel currentFileType box model).modelUnitConversion ∧
    box.isEmpty = false ∧
    maxDim box =
      max (max (box.max.x - box.min.x) (box.max.y - box.min.y)) (box.max.z - box.min.z) ∧
    (finalizeModel currentFileType box model).modelScaleFactor =
      5 / max (max (box.max.x - box.min.x) (box.max.y - box.min.y))
        (box.max.z - box.min.z) ∧
    ((box.max.x - box.min.x) * (finalizeModel currentFileType box model).modelScaleFactor ≤ 5 ∧
      (box.max.y - box.min.y) * (finalizeModel currentFileType box model).modelScaleFactor ≤ 5 ∧
      (box.max.z - box.min.z) * (finalizeModel currentFileType box model).modelScaleFactor ≤
        5) ∧
    ((box.max.x - box.min.x) * (finalizeModel currentFileType box model).modelScaleFactor = 5 ∨
      (box.max.y - box.min.y) * (finalizeModel currentFileType box model).modelScaleFactor = 5 ∨
      (box.max.z - box.min.z) * (finalizeModel currentFileType box model).modelScaleFactor =
        5) ∧
    box.getCenter = ⟨(box.min.x + box.max.x) * 0.5, (box.min.y + box.max.y) * 0.5,
      (box.min.z + box.max.z) * 0.5⟩ := by
  obtain ⟨hne, _, hcen, hexp⟩ := maxDim_of_pos box hmax
  have hs : (finalizeModel currentFileType box model).modelScaleFactor = 5 / maxDim box := by
    simp only [finalizeModel, gt_iff_lt, if_pos hmax]
  have hpos : 0 < (5 : ℝ) / maxDim box := div_pos (by norm_num) hmax
  have hmul : maxDim box * (5 / maxDim box) = 5 := by field_simp
  refine ⟨hs, by rw [hs]; exact hpos, ?_, ?_, ?_, hne, hexp, by rw [hs, hexp], ?_, ?_, hcen⟩
  · rw [hs]; field_simp
  · intro p
    simp only [finalizeModel, Object3D.localToWorld, Object3D.identity, Vector3.multiplyScalar,
      Vector3.subVectors]
    congr 1 <;> ring
  · rw [hwa, hwb, hs]
    simp only [originalDistance, Vector3.distanceTo, Vector3.distanceToSquared,
      Vector3.multiplyScalar, Vector3.subVectors]
    have e : ∀ p q c : ℝ, (p - c) * (5 / maxDim box) - (q - c) * (5 / maxDim box) =
        (5 / maxDim box) * (p - q) := by intro p q c; ring
    rw [e, e, e, sqrt_scaled_sum _ _ _ _ (le_of_lt hpos)]
    field_simp
  · rw [hs]
    have hx : box.max.x - box.min.x ≤ maxDim box := by
      rw [hexp]; exact le_trans (le_max_left _ _) (le_max_left _ _)
    have hy : box.max.y - box.min.y ≤ maxDim box := by
      rw [hexp]; exact le_trans (le_max_right _ _) (le_max_left _ _)
    have hz : box.max.z - box.min.z ≤ maxDim box := by
      rw [hexp]; exact le_max_right _ _
    refine ⟨?_, ?_, ?_⟩
    · calc (box.max.x - box.min.x) * (5 / maxDim box)
          ≤ maxDim box * (5 / maxDim box) := mul_le_mul_of_nonneg_right hx (le_of_lt hpos)
        _ = 5 := hmul
    · calc (box.max.y - box.min.y) * (5 / maxDim box)
          ≤ maxDim box * (5 / maxDim box) := mul_le_mul_of_nonneg_right hy (le_of_lt hpos)
        _ = 5 := hmul
    · calc (box.max.z - box.min.z) * (5 / maxDim box)
          ≤ maxDim box * (5 / maxDim box) := mul_le_mul_of_nonneg_right hz (le_of_lt hpos)
        _ = 5 := hmul
  · rw [hs]
    have hcases : maxDim box = box.max.x - box.min.x ∨ maxDim box = box.max.y - box.min.y ∨
        maxDim box = box.max.z - box.min.z := by
      rw [hexp]
      rcases max_choice (max (box.max.x - box.min.x) (box.max.y - box.min.y))
        (box.max.z - box.min.z) with h | h
      · rw [h]
        rcases max_choice (box.max.x - box.min.x) (box.max.y - box.min.y) with h2 | h2
        · exact Or.inl h2
        · exact Or.inr (Or.inl h2)
      · exact Or.inr (Or.inr h)
    rcases hcases with h | h | h
    · exact Or.inl (by rw [← h]; exact hmul)
    · exact Or.inr (Or.inl (by rw [← h]; exact hmul))
    · exact Or.inr (Or.inr (by rw [← h]; exact hmul))

/-- Witness for C9: an `stl` model of size 4 by 10 by 2, whose largest extent
is the second one. -/
theorem finalizeModel_distance_invariant_witness :
    (finalizeModel "stl" (⟨⟨0, 0, 0⟩, ⟨4, 10, 2⟩⟩ : Box3 ℝ) Object3D.identity).modelScaleFactor =
        5 / max (max ((4 : ℝ) - 0) (10 - 0)) (2 - 0) ∧
      originalDistance Real.sqrt
          (finalizeModel "stl" (⟨⟨0, 0, 0⟩, ⟨4, 10, 2⟩⟩ : Box3 ℝ)
            Object3D.identity).modelScaleFactor
          (finalizeModel "stl" (⟨⟨0, 0, 0⟩, ⟨4, 10, 2⟩⟩ : Box3 ℝ)
            Object3D.identity).modelUnitConversion
          (Vector3.multiplyScalar
            (Vector3.subVectors ⟨0, 0, 0⟩ (⟨⟨0, 0, 0⟩, ⟨4, 10, 2⟩⟩ : Box3 ℝ).getCenter)
            (finalizeModel "stl" (⟨⟨0, 0, 0⟩, ⟨4, 10, 2⟩⟩ : Box3 ℝ)
              Object3D.identity).modelScaleFactor)
          (Vector3.multiplyScalar
            (Vector3.subVectors ⟨0, 10, 0⟩ (⟨⟨0, 0, 0⟩, ⟨4, 10, 2⟩⟩ : Box3 ℝ).getCenter)
            (finalizeModel "stl" (⟨⟨0, 0, 0⟩, ⟨4, 10, 2⟩⟩ : Box3 ℝ)
              Object3D.identity).modelScaleFactor) =
        Vector3.distanceTo Real.sqrt ⟨0, 0, 0⟩ ⟨0, 10, 0⟩ *
          (finalizeModel "stl" (⟨⟨0, 0, 0⟩, ⟨4, 10, 2⟩⟩ : Box3 ℝ)
            Object3D.identity).modelUnitConversion :=
  ⟨(finalizeModel_distance_invariant "stl" (⟨⟨0, 0, 0⟩, ⟨4, 10, 2⟩⟩ : Box3 ℝ) Object3D.identity
      (by norm_num [maxDim, Box3.getSize, Box3.isEmpty, Vector3.subVectors])
      ⟨0, 0, 0⟩ ⟨0, 10, 0⟩ _ _ rfl rfl).2.2.2.2.2.2.2.1,
    (finalizeModel_distance_invariant "stl" (⟨⟨0, 0, 0⟩, ⟨4, 10, 2⟩⟩ : Box3 ℝ) Object3D.identity
      (by norm_num [maxDim, Box3.getSize, Box3.isEmpty, Vector3.subVectors])
      ⟨0, 0, 0⟩ ⟨0, 10, 0⟩ _ _ rfl rfl).2.2.2.2.1⟩

end ScaleTheorems

/-! ## Measurement store -/

section StoreLemmas

variable {K : Type}

@[simp] theorem updateSelectionVisuals_selected (st : RulerState K) :
    (updateSelectionVisuals st).selectedMeasurementIndex = st.selectedMeasurementIndex := rfl

@[simp] theorem updateSelectionVisuals_length (st : RulerState K) :
    (updateSelectionVisuals st).measurements.length = st.measurements.length := by
  simp [updateSelectionVisuals]

@[simp] theorem updateRemoveButtonState_selected (st : RulerState K) :
    (updateRemoveButtonState st).selectedMeasurementIndex = st.selectedMeasurementIndex := rfl

@[simp] theorem updateRemoveButtonState_measurements (st : RulerState K) :
    (updateRemoveButtonState st).measurements = st.measurements := rfl

@[simp] theorem selectMeasurement_selected (st : RulerState K) (i : Int) :
    (selectMeasurement st i).selectedMeasurementIndex = i := rfl

@[simp] theorem selectMeasurement_length (st : RulerState K) (i : Int) :
    (selectMeasurement st i).measurements.length = st.measurements.length := by
  simp [selectMeasurement, updateSelectionVisuals]

end StoreLemmas

section StoreLemmasField

variable {K : Type} [LinearOrderedField K] [FloorRing K]

@[simp] theorem updateMeasurementLine_selected (fuel : Nat) (sqrt : K → K) (st : RulerState K)
    (i : Int) :
    (updateMeasurementLine fuel sqrt st i).selectedMeasurementIndex =
      st.selectedMeasurementIndex := by
  unfold updateMeasurementLine
  split
  · rfl
  · split_ifs <;> rfl

@[simp] theorem updateMeasurementLine_length (fuel : Nat) (sqrt : K → K) (st : RulerState K)
    (i : Int) :
    (updateMeasurementLine fuel sqrt st i).measurements.length = st.measurements.length := by
  unfold updateMeasurementLine
  split
  · rfl
  · split_ifs
    · rfl
    · simp

theorem addMeasurement_length (fuel : Nat) (sqrt : K → K) (sc : Scene K) (st : RulerState K) :
    (addMeasurement fuel sqrt sc st).measurements.length = st.measurements.length + 1 := by
  simp [addMeasurement]

theorem addMeasurement_selected (fuel : Nat) (sqrt : K → K) (sc : Scene K) (st : RulerState K) :
    (addMeasurement fuel sqrt sc st).selectedMeasurementIndex = st.measurements.length := by
  simp [addMeasurement]

end StoreLemmasField

section StoreLemmasRemove

variable {K : Type}

theorem removeMeasurement_length (st : RulerState K) (i : Int) (h0 : 0 ≤ i)
    (hn : i < st.measurements.length) :
    (removeMeasurement st i).measurements.length = st.measurements.length - 1 := by
  have hcond : ¬ (i < 0 ∨ i ≥ st.measurements.length) := by omega
  have hi : i.toNat < st.measurements.length := by omega
  simp only [removeMeasurement, if_neg hcond]
  split_ifs <;> simp [List.length_eraseIdx, hi]

theorem selected_after_remove (st : RulerState K) (i : Int) (h0 : 0 ≤ i)
    (hn : i < st.measurements.length) :
    (removeMeasurement st i).selectedMeasurementIndex =
      if (st.measurements.length : Int) - 1 = 0 then -1
      else if st.selectedMeasurementIndex ≥ (st.measurements.length : Int) - 1 then
        (st.measurements.length : Int) - 2
      else st.selectedMeasurementIndex := by
  have hcond : ¬ (i < 0 ∨ i ≥ st.measurements.length) := by omega
  have hi : i.toNat < st.measurements.length := by omega
  have hlen : ((st.measurements.eraseIdx i.toNat).mapIdx
      (fun (j : Nat) (m : Measurement K) =>
        { m with point1Index := j, point2Index := j, lineIndex := j })).length =
      st.measurements.length - 1 := by
    simp [List.length_eraseIdx, hi]
  have hpos : 1 ≤ st.measurements.length := by omega
  simp only [removeMeasurement, if_neg hcond, hlen]
  by_cases h1 : st.measurements.length - 1 = 0
  · have : (st.measurements.length : Int) - 1 = 0 := by omega
    simp [h1, this]
  · have : ¬ ((st.measurements.length : Int) - 1 = 0) := by omega
    rw [if_neg h1, if_neg this]
    have hc : ((st.measurements.length - 1 : Nat) : Int) = (st.measurements.length : Int) - 1 := by
      omega
    by_cases h2 : st.selectedMeasurementIndex ≥ (st.measurements.length : Int) - 1
    · rw [if_pos h2, if_pos (by rw [hc]; exact h2)]
      simp only [updateRemoveButtonState_selected, updateSelectionVisuals_selected]
      omega
    · rw [if_neg h2, if_neg (by rw [hc]; exact h2)]
      simp

end StoreLemmasRemove

section StoreTheorems

variable {K : Type} [LinearOrderedField K] [FloorRing K]

/-- C10: for a store of `n ≥ 1` measurements with selected index `s` and a
valid index `0 ≤ i < n`, after `removeMeasurement i` the selected index is `-1`
if `n - 1 = 0`, otherwise `n - 2` if `s ≥ n - 1`, otherwise still `s`, and
`n - 1` measurements remain; and from any empty store, `addMeasurement` followed
by `removeMeasurement 0` leaves an empty store with selected index `-1`. -/
theorem removeMeasurement_selected (st : RulerState K) (i : Int) (h0 : 0 ≤ i)
    (hn : i < st.measurements.length) :
    ((st.measurements.length : Int) - 1 = 0 →
      (removeMeasurement st i).selectedMeasurementIndex = -1) ∧
    ((st.measurements.length : Int) - 1 ≠ 0 →
      st.selectedMeasurementIndex ≥ (st.measurements.length : Int) - 1 →
      (removeMeasurement st i).selectedMeasurementIndex = (st.measurements.length : Int) - 2) ∧
    ((st.measurements.length : Int) - 1 ≠ 0 →
      st.selectedMeasurementIndex < (st.measurements.length : Int) - 1 →
      (removeMeasurement st i).selectedMeasurementIndex = st.selectedMeasurementIndex) ∧
    (removeMeasurement st i).measurements.length = st.measurements.length - 1 ∧
    (∀ (fuel : Nat) (sqrt : K → K) (sc : Scene K) (st0 : RulerState K),
      st0.measurements = [] →
      (removeMeasurement (addMeasurement fuel sqrt sc st0) 0).measurements = [] ∧
      (removeMeasurement (addMeasurement fuel sqrt sc st0) 0).selectedMeasurementIndex = -1) := by
  have key := selected_after_remove st i h0 hn
  refine ⟨?_, ?_, ?_, removeMeasurement_length st i h0 hn, ?_⟩
  · intro h; rw [key, if_pos h]
  · intro h1 h2; rw [key, if_neg h1, if_pos h2]
  · intro h1 h2; rw [key, if_neg h1, if_neg (not_le.2 h2)]
  · intro fuel sqrt sc st0 hempty
    have hl := addMeasurement_length fuel sqrt sc st0
    rw [hempty] at hl
    simp only [List.length_nil, zero_add] at hl
    have hlen := removeMeasurement_length (addMeasurement fuel sqrt sc st0) 0 (le_refl 0)
      (by rw [hl]; norm_num)
    have hsel := selected_after_remove (addMeasurement fuel sqrt sc st0) 0 (le_refl 0)
      (by rw [hl]; norm_num)
    rw [hl] at hlen hsel
    refine ⟨List.eq_nil_of_length_eq_zero (by simpa using hlen), ?_⟩
    rw [hsel]; simp

/-- Witness for C10: removing the first of the two sample measurements, with
the second one selected, leaves the selection on the new last index. -/
theorem removeMeasurement_selected_witness :
    (removeMeasurement sampleStore 0).selectedMeasurementIndex =
      ((sampleStore.measurements.length : Int) - 2) :=
  (removeMeasurement_selected sampleStore 0 (by decide) (by decide)).2.1
    (by decide) (by decide)

end StoreTheorems

/-! ## Store operations, element by element -/

section RemoveLemmas

variable {K : Type}

theorem removeMeasurement_measurements (st : RulerState K) (i : Int) (h0 : 0 ≤ i)
    (hn : i < st.measurements.length) :
    (removeMeasurement st i).measurements =
      ((st.measurements.eraseIdx i.toNat).mapIdx
        (fun (j : Nat) (m : Measurement K) =>
          { m with point1Index := j, point2Index := j, lineIndex := j })).mapIdx
        (fun (j : Nat) (m : Measurement K) =>
          { m with
            selected := decide ((j : Int) = (removeMeasurement st i).selectedMeasurementIndex) }) := by
  have hcond : ¬ (i < 0 ∨ i ≥ st.measurements.length) := by omega
  simp only [removeMeasurement, if_neg hcond]
  split_ifs with h1 h2
  · have : (st.measurements.eraseIdx i.toNat).mapIdx
        (fun (j : Nat) (m : Measurement K) =>
          { m with point1Index := j, point2Index := j, lineIndex := j }) = [] :=
      List.eq_nil_of_length_eq_zero h1
    simp [this]
  · simp [updateSelectionVisuals]
  · simp [updateSelectionVisuals]

theorem removeMeasurement_getElem? (st : RulerState K) (i : Int) (h0 : 0 ≤ i)
    (hn : i < st.measurements.length) (j : Nat) :
    (removeMeasurement st i).measurements[j]? =
      ((st.measurements.eraseIdx i.toNat)[j]?).map
        (fun m => { m with
          point1Index := j, point2Index := j, lineIndex := j,
          selected := decide ((j : Int) = (removeMeasurement st i).selectedMeasurementIndex) }) := by
  rw [removeMeasurement_measurements st i h0 hn]
  simp only [List.getElem?_mapIdx, Option.map_map]
  rfl

end RemoveLemmas

section IndexLemmas

variable {K : Type}

theorem measurementAt_natCast (ms : List (Measurement K)) (n : Nat) :
    measurementAt ms (n : Int) = ms[n]? := by
  simp [measurementAt]

end IndexLemmas

section AddLemmas

variable {K : Type} [LinearOrderedField K] [FloorRing K]

theorem updateMeasurementLine_getElem? (fuel : Nat) (sqrt : K → K) (st : RulerState K) (n : Nat)
    (j : Nat) :
    (updateMeasurementLine fuel sqrt st (n : Int)).measurements[j]? =
      if st.rulerMode = true ∧ j = n then
        (st.measurements[j]?).map (fun m => { m with
          textContent := formatDistance fuel st.useMetric
            (originalDistance sqrt st.modelScaleFactor st.modelUnitConversion
              m.point1World m.point2World) })
      else st.measurements[j]? := by
  unfold updateMeasurementLine
  rw [measurementAt_natCast]
  cases hm : st.measurements[n]? with
  | none =>
    simp only
    split_ifs with h
    · obtain ⟨_, rfl⟩ := h
      rw [hm]; rfl
    · rfl
  | some m =>
    simp only
    cases hr : st.rulerMode with
    | false => simp
    | true =>
      simp only [Bool.not_true, Bool.false_eq_true, if_false, Int.toNat_ofNat, true_and]
      by_cases hj : j = n
      · subst hj
        have hlt : j < st.measurements.length := by
          by_contra hcon
          rw [List.getElem?_eq_none (by omega)] at hm
          cases hm
        rw [if_pos rfl, hm, List.getElem?_set_self hlt]
        rfl
      · rw [if_neg hj, List.getElem?_set_ne (Ne.symm hj)]

theorem updateMeasurementLine_frame (fuel : Nat) (sqrt : K → K) (st : RulerState K)
    (i : Int) :
    updateMeasurementLine fuel sqrt st i =
      { st with measurements := (updateMeasurementLine fuel sqrt st i).measurements } := by
  unfold updateMeasurementLine
  split
  · rfl
  · split_ifs <;> rfl

theorem updateAll_fold (fuel : Nat) (sqrt : K → K) (st : RulerState K) (k : Nat) :
    (List.range k).foldl (fun (s : RulerState K) (i : Nat) => updateMeasurementLine fuel sqrt s (i : Int)) st =
      { st with measurements :=
        ((List.range k).foldl (fun (s : RulerState K) (i : Nat) => updateMeasurementLine fuel sqrt s (i : Int))
          st).measurements } ∧
    ∀ j : Nat,
      ((List.range k).foldl (fun (s : RulerState K) (i : Nat) => updateMeasurementLine fuel sqrt s (i : Int))
          st).measurements[j]? =
        if st.rulerMode = true ∧ j < k then
          (st.measurements[j]?).map (fun m => { m with
            textContent := formatDistance fuel st.useMetric
              (originalDistance sqrt st.modelScaleFactor st.modelUnitConversion
                m.point1World m.point2World) })
        else st.measurements[j]? := by
  induction k with
  | zero => simp
  | succ n ih =>
    obtain ⟨hframe, hget⟩ := ih
    rw [List.range_succ, List.foldl_append]
    simp only [List.foldl_cons, List.foldl_nil]
    generalize (List.range n).foldl
      (fun (s : RulerState K) (i : Nat) => updateMeasurementLine fuel sqrt s (i : Int)) st = mid at hframe hget
    constructor
    · rw [updateMeasurementLine_frame]
      rw [hframe]
    · intro j
      have hr : mid.rulerMode = st.rulerMode := by rw [hframe]
      have hu : mid.useMetric = st.useMetric := by rw [hframe]
      have hs : mid.modelScaleFactor = st.modelScaleFactor := by rw [hframe]
      have hc : mid.modelUnitConversion = st.modelUnitConversion := by rw [hframe]
      rw [updateMeasurementLine_getElem?, hr, hu, hs, hc, hget]
      by_cases hrm : st.rulerMode = true
      · by_cases hj : j = n
        · subst hj
          simp [hrm]
        · by_cases hlt : j < n
          · have : j < n + 1 := by omega
            simp [hrm, hj, hlt, this]
          · have : ¬ j < n + 1 := by omega
            simp [hrm, hj, hlt, this]
      · simp [hrm]

theorem updateAllMeasurements_frame (fuel : Nat) (sqrt : K → K) (st : RulerState K) :
    updateAllMeasurements fuel sqrt st =
      { st with measurements := (updateAllMeasurements fuel sqrt st).measurements } :=
  (updateAll_fold fuel sqrt st st.measurements.length).1

theorem updateAllMeasurements_getElem? (fuel : Nat) (sqrt : K → K) (st : RulerState K)
    (j : Nat) :
    (updateAllMeasurements fuel sqrt st).measurements[j]? =
      if st.rulerMode = true then
        (st.measurements[j]?).map (fun m => { m with
          textContent := formatDistance fuel st.useMetric
            (originalDistance sqrt st.modelScaleFactor st.modelUnitConversion
              m.point1World m.point2World) })
      else st.measurements[j]? := by
  unfold updateAllMeasurements
  rw [(updateAll_fold fuel sqrt st st.measurements.length).2 j]
  by_cases hrm : st.rulerMode = true
  · by_cases hj : j < st.measurements.length
    · simp [hrm, hj]
    · rw [List.getElem?_eq_none (by omega)]
      simp
  · simp [hrm]

end AddLemmas

section RemoveTheorems

variable {K : Type}

/-- C11: for a valid index `i`, after `removeMeasurement i` the store has
`n - 1` entries; entry `j` is entry `j` of the old array without its element `i`
(same world points, label and display state), with `dataset.measurementIndex` of
its three elements set to `j`; so the world points are those of the other
measurements in their old order, the recorded indices are `0, 1, ..., n - 2`,
and for `n = 3` they are `0` and `1`. -/
theorem removeMeasurement_renumbers (st : RulerState K) (i : Int) (h0 : 0 ≤ i)
    (hn : i < st.measurements.length) :
    (removeMeasurement st i).measurements.length = st.measurements.length - 1 ∧
    (∀ j : Nat, (removeMeasurement st i).measurements[j]? =
      ((st.measurements.eraseIdx i.toNat)[j]?).map
        (fun m => { m with
          point1Index := j, point2Index := j, lineIndex := j,
          selected :=
            decide ((j : Int) = (removeMeasurement st i).selectedMeasurementIndex) })) ∧
    (removeMeasurement st i).measurements.map Measurement.worldPoints =
      (st.measurements.eraseIdx i.toNat).map Measurement.worldPoints ∧
    (removeMeasurement st i).measurements.map (fun m => m.point1Index) =
      (List.range (st.measurements.length - 1)).map Int.ofNat ∧
    (removeMeasurement st i).measurements.map (fun m => m.point2Index) =
      (List.range (st.measurements.length - 1)).map Int.ofNat ∧
    (removeMeasurement st i).measurements.map (fun m => m.lineIndex) =
      (List.range (st.measurements.length - 1)).map Int.ofNat ∧
    (st.measurements.length = 3 →
      (removeMeasurement st i).measurements.map
        (fun m => (m.point1Index, m.point2Index, m.lineIndex)) = [(0, 0, 0), (1, 1, 1)]) := by
  have hlen := removeMeasurement_length st i h0 hn
  have hget := removeMeasurement_getElem? st i h0 hn
  have hi : i.toNat < st.measurements.length := by omega
  have hel : (st.measurements.eraseIdx i.toNat).length = st.measurements.length - 1 := by
    simp [List.length_eraseIdx, hi]
  have hidx : ∀ (f : Measurement K → Int),
      (∀ (j : Nat) (m : Measurement K), f { m with
          point1Index := j, point2Index := j, lineIndex := j,
          selected :=
            decide ((j : Int) = (removeMeasurement st i).selectedMeasurementIndex) } = j) →
      (removeMeasurement st i).measurements.map f =
        (List.range (st.measurements.length - 1)).map Int.ofNat := by
    intro f hf
    apply List.ext_getElem?
    intro j
    simp only [List.getElem?_map, hget, Option.map_map]
    by_cases hj : j < st.measurements.length - 1
    · rw [List.getElem?_eq_getElem (by rw [hel]; exact hj),
        List.getElem?_eq_getElem (by simpa using hj)]
      simp [hf]
    · rw [List.getElem?_eq_none (by rw [hel]; omega),
        List.getElem?_eq_none (by simp; omega)]
      rfl
  have h1 := hidx (fun m => m.point1Index) (fun _ _ => rfl)
  have h2 := hidx (fun m => m.point2Index) (fun _ _ => rfl)
  have h3 := hidx (fun m => m.lineIndex) (fun _ _ => rfl)
  refine ⟨hlen, hget, ?_, h1, h2, h3, ?_⟩
  · apply List.ext_getElem?
    intro j
    simp only [List.getElem?_map, hget, Option.map_map]
    rfl
  · intro h3len
    have e : (removeMeasurement st i).measurements.map
        (fun m => (m.point1Index, m.point2Index, m.lineIndex)) =
        ((List.range (st.measurements.length - 1)).map Int.ofNat).map (fun z => (z, z, z)) := by
      apply List.ext_getElem?
      intro j
      simp only [List.getElem?_map, hget, Option.map_map]
      by_cases hj : j < st.measurements.length - 1
      · rw [List.getElem?_eq_getElem (by rw [hel]; exact hj),
          List.getElem?_eq_getElem (by simpa using hj)]
        simp
      · rw [List.getElem?_eq_none (by rw [hel]; omega),
          List.getElem?_eq_none (by simp; omega)]
        rfl
    rw [e, h3len]
    rfl

theorem removeMeasurement_points_at (st : RulerState K) (i : Int) (h0 : 0 ≤ i)
    (hn : i < st.measurements.length) (j : Int) (hj : 0 ≤ j) :
    (measurementAt (removeMeasurement st i).measurements j).map Measurement.worldPoints =
      if j < i then (measurementAt st.measurements j).map Measurement.worldPoints
      else (measurementAt st.measurements (j + 1)).map Measurement.worldPoints := by
  have hj1 : (0 : Int) ≤ j + 1 := by omega
  have ht : (j + 1).toNat = j.toNat + 1 := by omega
  simp only [measurementAt, if_pos hj, if_pos hj1, List.get?_eq_getElem?,
    removeMeasurement_getElem? st i h0 hn, Option.map_map, ht]
  by_cases hlt : j < i
  · rw [if_pos hlt, List.getElem?_eraseIdx_of_lt _ _ _ (by omega)]
    rfl
  · rw [if_neg hlt, List.getElem?_eraseIdx_of_ge _ _ _ (by omega)]
    rfl

/-- C12, counterexample: in a store of three measurements with the middle one
selected, removing the first one leaves the selected index at `1`, not `0`, and
index `1` then holds the former third measurement, not the one that was
selected. -/
theorem removeMeasurement_selection_counterexample :
    sampleStore3.selectedMeasurementIndex = 1 ∧
    (removeMeasurement sampleStore3 0).selectedMeasurementIndex = 1 ∧
    (removeMeasurement sampleStore3 0).selectedMeasurementIndex ≠ 1 - 1 ∧
    (measurementAt sampleStore3.measurements 1).map Measurement.worldPoints =
      some (⟨0, 0, 0⟩, ⟨0, 2, 0⟩) ∧
    (measurementAt (removeMeasurement sampleStore3 0).measurements
        (removeMeasurement sampleStore3 0).selectedMeasurementIndex).map
        Measurement.worldPoints =
      some (⟨0, 0, 0⟩, ⟨0, 0, 3⟩) ∧
    (measurementAt (removeMeasurement sampleStore3 0).measurements
        (removeMeasurement sampleStore3 0).selectedMeasurementIndex).map
        Measurement.worldPoints ≠
      (measurementAt sampleStore3.measurements 1).map Measurement.worldPoints := by
  refine ⟨by decide!, by decide!, by decide!, by decide!, by decide!, by decide!⟩

/-- C12, amended: for a valid selected index `s` and a valid index `i` other
than `s`, after `removeMeasurement i`: if `i > s` the selected index is still
`s` and holds the same measurement; if `i < s` and `s` is the last index, the
selected index is `s - 1` and holds the same measurement; if `i < s` and `s` is
not the last index, the selected index stays `s` and holds the measurement that
followed the selected one. -/
theorem removeMeasurement_selection_target (st : RulerState K) (i s : Int)
    (hs : s = st.selectedMeasurementIndex) (hs0 : 0 ≤ s) (hsn : s < st.measurements.length)
    (h0 : 0 ≤ i) (hn : i < st.measurements.length) :
    (s < i →
      (removeMeasurement st i).selectedMeasurementIndex = s ∧
      (measurementAt (removeMeasurement st i).measurements s).map Measurement.worldPoints =
        (measurementAt st.measurements s).map Measurement.worldPoints) ∧
    (i < s → s = (st.measurements.length : Int) - 1 →
      (removeMeasurement st i).selectedMeasurementIndex = s - 1 ∧
      (measurementAt (removeMeasurement st i).measurements (s - 1)).map
          Measurement.worldPoints =
        (measurementAt st.measurements s).map Measurement.worldPoints) ∧
    (i < s → s < (st.measurements.length : Int) - 1 →
      (removeMeasurement st i).selectedMeasurementIndex = s ∧
      (measurementAt (removeMeasurement st i).measurements s).map Measurement.worldPoints =
        (measurementAt st.measurements (s + 1)).map Measurement.worldPoints) := by
  have hsel := selected_after_remove st i h0 hn
  rw [← hs] at hsel
  refine ⟨?_, ?_, ?_⟩
  · intro hlt
    refine ⟨?_, ?_⟩
    · rw [hsel, if_neg (by omega), if_neg (by omega)]
    · rw [removeMeasurement_points_at st i h0 hn s hs0, if_pos hlt]
  · intro hlt hlast
    refine ⟨?_, ?_⟩
    · rw [hsel, if_neg (by omega), if_pos (by omega)]
      omega
    · rw [removeMeasurement_points_at st i h0 hn (s - 1) (by omega), if_neg (by omega)]
      simp
  · intro hlt hmid
    refine ⟨?_, ?_⟩
    · rw [hsel, if_neg (by omega), if_neg (by omega)]
    · rw [removeMeasurement_points_at st i h0 hn s hs0, if_neg (by omega)]

/-- Witness for C11: removing the first of three measurements. -/
theorem removeMeasurement_renumbers_witness :
    (removeMeasurement sampleStore3 0).measurements.map
        (fun m => (m.point1Index, m.point2Index, m.lineIndex)) = [(0, 0, 0), (1, 1, 1)] :=
  (removeMeasurement_renumbers sampleStore3 0 (by decide) (by decide)).2.2.2.2.2.2 rfl

/-- Witness for C12: removing the last of three measurements with the middle
one selected. -/
theorem removeMeasurement_selection_target_witness :
    (removeMeasurement sampleStore3 2).selectedMeasurementIndex = 1 ∧
      (measurementAt (removeMeasurement sampleStore3 2).measurements 1).map
          Measurement.worldPoints =
        (measurementAt sampleStore3.measurements 1).map Measurement.worldPoints :=
  (removeMeasurement_selection_target sampleStore3 2 1 rfl (by decide) (by decide)
    (by decide) (by decide)).1 (by decide)

/-- C14: for an index below zero or at least the number of measurements,
`removeMeasurement` returns the state it was given: the measurements, their
world points and the selected index are unchanged. -/
theorem removeMeasurement_out_of_range (st : RulerState K) (index : Int)
    (h : index < 0 ∨ index ≥ st.measurements.length) :
    removeMeasurement st index = st ∧
    (removeMeasurement st index).measurements = st.measurements ∧
    (removeMeasurement st index).measurements.map Measurement.worldPoints =
      st.measurements.map Measurement.worldPoints ∧
    (removeMeasurement st index).selectedMeasurementIndex = st.selectedMeasurementIndex := by
  have e : removeMeasurement st index = st := by
    simp only [removeMeasurement, if_pos h]
  rw [e]
  exact ⟨rfl, rfl, rfl, rfl⟩

/-- Witness for C14: index five in a store of two measurements. -/
theorem removeMeasurement_out_of_range_witness :
    removeMeasurement sampleStore 5 = sampleStore :=
  (removeMeasurement_out_of_range sampleStore 5 (Or.inr (by decide))).1

end RemoveTheorems

section AddTheorems

variable {K : Type} [LinearOrderedField K] [FloorRing K]

theorem addMeasurement_getElem? (fuel : Nat) (sqrt : K → K) (sc : Scene K) (st : RulerState K)
    (j : Nat) :
    (addMeasurement fuel sqrt sc st).measurements[j]? =
      if j < st.measurements.length then
        (st.measurements[j]?).map (fun m => { m with selected := false })
      else if j = st.measurements.length then
        some
          { point1World :=
              (raycastToSurface sqrt sc st.modelScaleFactor (sc.clientWidth / 2 - 50)
                (sc.clientHeight / 2)).getD
                (screenToWorldAtDistance sc (sc.clientWidth / 2 - 50) (sc.clientHeight / 2))
            point2World :=
              (raycastToSurface sqrt sc st.modelScaleFactor (sc.clientWidth / 2 + 50)
                (sc.clientHeight / 2)).getD
                (screenToWorldAtDistance sc (sc.clientWidth / 2 + 50) (sc.clientHeight / 2))
            point1Index := st.measurements.length
            point2Index := st.measurements.length
            lineIndex := st.measurements.length
            displayed := true
            selected := true
            textContent :=
              if st.rulerMode = true then
                formatDistance fuel st.useMetric
                  (originalDistance sqrt st.modelScaleFactor st.modelUnitConversion
                    ((raycastToSurface sqrt sc st.modelScaleFactor (sc.clientWidth / 2 - 50)
                      (sc.clientHeight / 2)).getD
                      (screenToWorldAtDistance sc (sc.clientWidth / 2 - 50)
                        (sc.clientHeight / 2)))
                    ((raycastToSurface sqrt sc st.modelScaleFactor (sc.clientWidth / 2 + 50)
                      (sc.clientHeight / 2)).getD
                      (screenToWorldAtDistance sc (sc.clientWidth / 2 + 50)
                        (sc.clientHeight / 2))))
              else some "" }
      else none := by
  simp only [addMeasurement, updateRemoveButtonState_measurements,
    updateMeasurementLine_getElem?]
  simp only [selectMeasurement, updateRemoveButtonState, updateSelectionVisuals,
    List.getElem?_mapIdx]
  by_cases hlt : j < st.measurements.length
  · have hne : j ≠ st.measurements.length := by omega
    have hne2 : ¬ ((j : Int) = (st.measurements.length : Int)) := by omega
    simp only [hne, and_false, if_false, if_pos hlt, List.getElem?_append_left hlt, hne2,
      decide_False]
  · by_cases heq : j = st.measurements.length
    · subst heq
      simp only [lt_irrefl, if_false, and_true, if_true]
      rw [List.getElem?_append_right (le_refl _)]
      simp only [Nat.sub_self, List.getElem?_cons_zero, Option.map_some', decide_True,
        createMeasurement]
      by_cases hr : st.rulerMode = true
      · simp [hr]
      · simp [hr]
    · simp only [heq, and_false, if_false, if_neg hlt]
      rw [List.getElem?_eq_none (by simp; omega)]
      rfl

/-- C15: after `addMeasurement` the store has `n + 1` entries; entry `j < n`
is the old entry `j` with the class `selected` cleared, so the first `n` world
point pairs are the old ones in the same order; entry `n` has as each world
point the probe result for its default screen point, or the unprojection of
that screen point when the probe returns `null`, carries index `n` and the class
`selected`; and the selected index is `n`. -/
theorem addMeasurement_appends (fuel : Nat) (sqrt : K → K) (sc : Scene K)
    (st : RulerState K) :
    (addMeasurement fuel sqrt sc st).measurements.length = st.measurements.length + 1 ∧
    (∀ j : Nat, j < st.measurements.length →
      (addMeasurement fuel sqrt sc st).measurements[j]? =
        (st.measurements[j]?).map (fun m => { m with selected := false })) ∧
    ((addMeasurement fuel sqrt sc st).measurements.take st.measurements.length).map
        Measurement.worldPoints = st.measurements.map Measurement.worldPoints ∧
    (∃ m : Measurement K,
      (addMeasurement fuel sqrt sc st).measurements[st.measurements.length]? = some m ∧
      (∀ p, raycastToSurface sqrt sc st.modelScaleFactor (sc.clientWidth / 2 - 50)
          (sc.clientHeight / 2) = some p → m.point1World = p) ∧
      (raycastToSurface sqrt sc st.modelScaleFactor (sc.clientWidth / 2 - 50)
          (sc.clientHeight / 2) = none →
        m.point1World =
          screenToWorldAtDistance sc (sc.clientWidth / 2 - 50) (sc.clientHeight / 2)) ∧
      (∀ p, raycastToSurface sqrt sc st.modelScaleFactor (sc.clientWidth / 2 + 50)
          (sc.clientHeight / 2) = some p → m.point2World = p) ∧
      (raycastToSurface sqrt sc st.modelScaleFactor (sc.clientWidth / 2 + 50)
          (sc.clientHeight / 2) = none →
        m.point2World =
          screenToWorldAtDistance sc (sc.clientWidth / 2 + 50) (sc.clientHeight / 2)) ∧
      m.point1Index = st.measurements.length ∧ m.point2Index = st.measurements.length ∧
      m.lineIndex = st.measurements.length ∧ m.selected = true) ∧
    (addMeasurement fuel sqrt sc st).selectedMeasurementIndex = st.measurements.length := by
  have hget := addMeasurement_getElem? fuel sqrt sc st
  refine ⟨addMeasurement_length fuel sqrt sc st, ?_, ?_, ?_,
    addMeasurement_selected fuel sqrt sc st⟩
  · intro j hj
    rw [hget, if_pos hj]
  · apply List.ext_getElem?
    intro j
    simp only [List.getElem?_map, List.getElem?_take]
    by_cases hj : j < st.measurements.length
    · rw [if_pos hj, hget, if_pos hj, Option.map_map]
      rfl
    · rw [if_neg hj, List.getElem?_eq_none (by omega)]
  · have hm := hget st.measurements.length
    rw [if_neg (lt_irrefl _), if_pos rfl] at hm
    refine ⟨_, hm, ?_, ?_, ?_, ?_, rfl, rfl, rfl, rfl⟩
    · intro p hp
      simp only [hp, Option.getD_some]
    · intro hp
      simp only [hp, Option.getD_none]
    · intro p hp
      simp only [hp, Option.getD_some]
    · intro hp
      simp only [hp, Option.getD_none]

end AddTheorems

section MovePoint

variable {K : Type} [LinearOrderedField K] [FloorRing K]

theorem updateRulerPointPosition_frame (fuel : Nat) (sqrt : K → K) (sc : Scene K)
    (st : RulerState K) (i pointNum : Int) (x y : K) :
    updateRulerPointPosition fuel sqrt sc st i pointNum x y =
      { st with
        measurements :=
          (updateRulerPointPosition fuel sqrt sc st i pointNum x y).measurements } := by
  unfold updateRulerPointPosition
  split
  · rfl
  · rw [updateMeasurementLine_frame]

/-- C16: `updateRulerPointPosition i pointNum x y` returns the state unchanged
when there is no measurement at `i`; otherwise the measurement at `i` gets the
probe result for `(x, y)`, or the unprojection when the probe returns `null`, as
its first world point for `pointNum = 1` and as its second for `pointNum = 2`,
its other world point is kept, every other entry of the array is kept, and the
number of entries and the selected index are unchanged. -/
theorem updateRulerPointPosition_moves_one_endpoint (fuel : Nat) (sqrt : K → K) (sc : Scene K)
    (st : RulerState K) (i pointNum : Int) (x y : K) :
    (measurementAt st.measurements i = none →
      updateRulerPointPosition fuel sqrt sc st i pointNum x y = st) ∧
    (∀ m : Measurement K, measurementAt st.measurements i = some m →
      ∃ m1 : Measurement K,
        measurementAt (updateRulerPointPosition fuel sqrt sc st i pointNum x y).measurements i =
          some m1 ∧
        (pointNum = 1 →
          m1.point1World = (raycastToSurface sqrt sc st.modelScaleFactor x y).getD
            (screenToWorldAtDistance sc x y) ∧
          m1.point2World = m.point2World) ∧
        (pointNum = 2 →
          m1.point2World = (raycastToSurface sqrt sc st.modelScaleFactor x y).getD
            (screenToWorldAtDistance sc x y) ∧
          m1.point1World = m.point1World)) ∧
    (∀ j : Int, j ≠ i →
      measurementAt (updateRulerPointPosition fuel sqrt sc st i pointNum x y).measurements j =
        measurementAt st.measurements j) ∧
    (updateRulerPointPosition fuel sqrt sc st i pointNum x y).measurements.length =
      st.measurements.length ∧
    (updateRulerPointPosition fuel sqrt sc st i pointNum x y).selectedMeasurementIndex =
      st.selectedMeasurementIndex := by
  refine ⟨?_, ?_, ?_, ?_, ?_⟩
  · intro h
    simp only [updateRulerPointPosition, h]
  · intro m hm
    have hi0 : 0 ≤ i := by
      by_contra hneg
      simp [measurementAt, hneg] at hm
    obtain ⟨n, rfl⟩ := Int.eq_ofNat_of_zero_le hi0
    rw [measurementAt_natCast] at hm
    have hlt : n < st.measurements.length := by
      by_contra hcon
      rw [List.getElem?_eq_none (by omega)] at hm
      cases hm
    simp only [updateRulerPointPosition, measurementAt_natCast, hm,
      updateMeasurementLine_getElem?, Int.toNat_ofNat, and_true, List.getElem?_set_self hlt]
    cases hp : raycastToSurface sqrt sc st.modelScaleFactor x y with
    | none =>
      simp only [Option.getD_none]
      by_cases h1 : pointNum = 1
      · simp only [if_pos h1]
        have h2 : pointNum ≠ 2 := by omega
        split_ifs <;> exact ⟨_, rfl, fun _ => ⟨rfl, rfl⟩, fun h => absurd h h2⟩
      · simp only [if_neg h1]
        split_ifs <;> exact ⟨_, rfl, fun h => absurd h h1, fun _ => ⟨rfl, rfl⟩⟩
    | some p =>
      simp only [Option.getD_some]
      by_cases h1 : pointNum = 1
      · simp only [if_pos h1]
        have h2 : pointNum ≠ 2 := by omega
        split_ifs <;> exact ⟨_, rfl, fun _ => ⟨rfl, rfl⟩, fun h => absurd h h2⟩
      · simp only [if_neg h1]
        split_ifs <;> exact ⟨_, rfl, fun h => absurd h h1, fun _ => ⟨rfl, rfl⟩⟩
  · intro j hj
    cases hm : measurementAt st.measurements i with
    | none => simp only [updateRulerPointPosition, hm]
    | some m =>
      have hi0 : 0 ≤ i := by
        by_contra hneg
        simp [measurementAt, hneg] at hm
      obtain ⟨n, rfl⟩ := Int.eq_ofNat_of_zero_le hi0
      by_cases hj0 : 0 ≤ j
      · obtain ⟨k, rfl⟩ := Int.eq_ofNat_of_zero_le hj0
        have hkn : k ≠ n := by intro h; apply hj; rw [h]
        simp only [updateRulerPointPosition, hm, measurementAt_natCast,
          updateMeasurementLine_getElem?, Int.toNat_ofNat, hkn, and_false, if_false,
          List.getElem?_set_ne (Ne.symm hkn)]
      · simp [measurementAt, hj0]
  · unfold updateRulerPointPosition
    split
    · rfl
    · simp
  · rw [updateRulerPointPosition_frame]

end MovePoint

section ReachLemmas

variable {K : Type} [LinearOrderedField K] [FloorRing K]

theorem updateAllMeasurements_length (fuel : Nat) (sqrt : K → K) (st : RulerState K) :
    (updateAllMeasurements fuel sqrt st).measurements.length = st.measurements.length := by
  have h : ∀ (l : List Nat) (s : RulerState K),
      (l.foldl (fun (s : RulerState K) (i : Nat) => updateMeasurementLine fuel sqrt s (i : Int))
        s).measurements.length = s.measurements.length := by
    intro l
    induction l with
    | nil => intro s; rfl
    | cons a t ih =>
      intro s
      rw [List.foldl_cons, ih, updateMeasurementLine_length]
  exact h _ st

theorem updateAllMeasurements_selected (fuel : Nat) (sqrt : K → K) (st : RulerState K) :
    (updateAllMeasurements fuel sqrt st).selectedMeasurementIndex =
      st.selectedMeasurementIndex := by
  rw [updateAllMeasurements_frame]

theorem toggleRulerMode_selected_range (fuel : Nat) (sqrt : K → K) (sc : Scene K)
    (st : RulerState K)
    (h : -1 ≤ st.selectedMeasurementIndex ∧
      st.selectedMeasurementIndex < st.measurements.length) :
    -1 ≤ (toggleRulerMode fuel sqrt sc st).selectedMeasurementIndex ∧
      (toggleRulerMode fuel sqrt sc st).selectedMeasurementIndex <
        (toggleRulerMode fuel sqrt sc st).measurements.length := by
  unfold toggleRulerMode
  simp only
  split_ifs with h1 h2
  · simp only [updateRemoveButtonState_selected, updateRemoveButtonState_measurements,
      addMeasurement_selected, addMeasurement_length]
    constructor <;> omega
  · simp only [updateRemoveButtonState_selected, updateRemoveButtonState_measurements,
      updateAllMeasurements_selected, updateAllMeasurements_length, List.length_map]
    exact h
  · simp only [List.length_map]
    constructor <;> omega

theorem removeMeasurement_noop (st : RulerState K) (i : Int)
    (h : i < 0 ∨ i ≥ st.measurements.length) : removeMeasurement st i = st := by
  simp only [removeMeasurement, if_pos h]

theorem updateRulerPointPosition_length (fuel : Nat) (sqrt : K → K) (sc : Scene K)
    (st : RulerState K) (i pointNum : Int) (x y : K) :
    (updateRulerPointPosition fuel sqrt sc st i pointNum x y).measurements.length =
      st.measurements.length := by
  unfold updateRulerPointPosition
  split
  · rfl
  · simp

theorem updateRulerPointPosition_selected (fuel : Nat) (sqrt : K → K) (sc : Scene K)
    (st : RulerState K) (i pointNum : Int) (x y : K) :
    (updateRulerPointPosition fuel sqrt sc st i pointNum x y).selectedMeasurementIndex =
      st.selectedMeasurementIndex := by
  rw [updateRulerPointPosition_frame]

theorem removeMeasurement_selected_range (st : RulerState K) (i : Int)
    (h : -1 ≤ st.selectedMeasurementIndex ∧
      st.selectedMeasurementIndex < st.measurements.length) :
    -1 ≤ (removeMeasurement st i).selectedMeasurementIndex ∧
      (removeMeasurement st i).selectedMeasurementIndex <
        (removeMeasurement st i).measurements.length := by
  by_cases hv : i < 0 ∨ i ≥ st.measurements.length
  · rw [removeMeasurement_noop st i hv]; exact h
  · have h0 : 0 ≤ i := by omega
    have hn : i < st.measurements.length := by omega
    rw [selected_after_remove st i h0 hn, removeMeasurement_length st i h0 hn]
    split_ifs <;> constructor <;> omega

theorem reachable_selected_range (fuel : Nat) (sqrt : K → K) (st : RulerState K)
    (hr : Reachable fuel sqrt st) :
    -1 ≤ st.selectedMeasurementIndex ∧
      st.selectedMeasurementIndex < st.measurements.length := by
  induction hr with
  | initial => constructor <;> simp [RulerState.initial]
  | add sc st _ _ =>
    rw [addMeasurement_selected, addMeasurement_length]
    constructor <;> omega
  | remove i st _ ih => exact removeMeasurement_selected_range st i ih
  | toggle sc st _ ih => exact toggleRulerMode_selected_range fuel sqrt sc st ih
  | select j st _ h1 h2 _ =>
    rw [selectMeasurement_selected, selectMeasurement_length]
    exact ⟨h1, h2⟩
  | unit st _ ih =>
    unfold toggleUseMetric
    rw [updateAllMeasurements_selected, updateAllMeasurements_length]
    exact ih
  | movePoint sc i p x y st _ ih =>
    rw [updateRulerPointPosition_selected, updateRulerPointPosition_length]
    exact ih
  | load t b m st _ ih => exact ih

theorem updateAllMeasurements_flags (fuel : Nat) (sqrt : K → K) (st : RulerState K) :
    (updateAllMeasurements fuel sqrt st).measurements.map (fun m => m.selected) =
      st.measurements.map (fun m => m.selected) := by
  apply List.ext_getElem?
  intro j
  simp only [List.getElem?_map, updateAllMeasurements_getElem?]
  split_ifs
  · rw [Option.map_map]; rfl
  · rfl

theorem updateRulerPointPosition_flags (fuel : Nat) (sqrt : K → K) (sc : Scene K)
    (st : RulerState K) (i pointNum : Int) (x y : K) :
    (updateRulerPointPosition fuel sqrt sc st i pointNum x y).measurements.map
        (fun m => m.selected) = st.measurements.map (fun m => m.selected) := by
  cases hm : measurementAt st.measurements i with
  | none => simp only [updateRulerPointPosition, hm]
  | some m =>
    have hi0 : 0 ≤ i := by
      by_contra hneg
      simp [measurementAt, hneg] at hm
    obtain ⟨n, rfl⟩ := Int.eq_ofNat_of_zero_le hi0
    rw [measurementAt_natCast] at hm
    have hlt : n < st.measurements.length := by
      by_contra hcon
      rw [List.getElem?_eq_none (by omega)] at hm
      cases hm
    apply List.ext_getElem?
    intro j
    simp only [updateRulerPointPosition, measurementAt_natCast, hm, List.getElem?_map,
      updateMeasurementLine_getElem?, Int.toNat_ofNat]
    by_cases hj : j = n
    · subst hj
      rw [List.getElem?_set_self hlt, hm]
      cases raycastToSurface sqrt sc st.modelScaleFactor x y <;>
        simp only <;> split_ifs <;> rfl
    · rw [List.getElem?_set_ne (Ne.symm hj)]
      simp [hj]

theorem flags_unique_of_decide (l : List (Measurement K)) (s : Int) (i j : Nat)
    (hi : ((l.mapIdx (fun (k : Nat) (m : Measurement K) =>
      { m with selected := decide ((k : Int) = s) })).map (fun m => m.selected))[i]? = some true)
    (hj : ((l.mapIdx (fun (k : Nat) (m : Measurement K) =>
      { m with selected := decide ((k : Int) = s) })).map (fun m => m.selected))[j]? = some true) :
    i = j := by
  simp only [List.getElem?_map, List.getElem?_mapIdx, Option.map_map] at hi hj
  cases h1 : l[i]? with
  | none => rw [h1] at hi; cases hi
  | some a =>
    cases h2 : l[j]? with
    | none => rw [h2] at hj; cases hj
    | some b =>
      rw [h1] at hi
      rw [h2] at hj
      simp only [Option.map_some', Function.comp_apply, Option.some.injEq,
        decide_eq_true_eq] at hi hj
      omega

theorem addMeasurement_flag_true (fuel : Nat) (sqrt : K → K) (sc : Scene K)
    (st : RulerState K) (i : Nat)
    (h : ((addMeasurement fuel sqrt sc st).measurements.map (fun m => m.selected))[i]? =
      some true) : i = st.measurements.length := by
  simp only [List.getElem?_map, addMeasurement_getElem?] at h
  by_cases hlt : i < st.measurements.length
  · rw [if_pos hlt, Option.map_map] at h
    cases hm : st.measurements[i]? with
    | none => rw [hm] at h; cases h
    | some a => rw [hm] at h; simp at h
  · rw [if_neg hlt] at h
    by_cases heq : i = st.measurements.length
    · exact heq
    · rw [if_neg heq] at h; cases h

theorem toggleRulerMode_flags_unique (fuel : Nat) (sqrt : K → K) (sc : Scene K)
    (st : RulerState K)
    (ih : ∀ i j : Nat, (st.measurements.map (fun m => m.selected))[i]? = some true →
      (st.measurements.map (fun m => m.selected))[j]? = some true → i = j)
    (i j : Nat)
    (hi : ((toggleRulerMode fuel sqrt sc st).measurements.map (fun m => m.selected))[i]? =
      some true)
    (hj : ((toggleRulerMode fuel sqrt sc st).measurements.map (fun m => m.selected))[j]? =
      some true) : i = j := by
  unfold toggleRulerMode at hi hj
  simp only at hi hj
  split_ifs at hi hj with h1 h2
  · rw [updateRemoveButtonState_measurements] at hi hj
    rw [addMeasurement_flag_true fuel sqrt sc _ i hi, addMeasurement_flag_true fuel sqrt sc _ j hj]
  · rw [updateRemoveButtonState_measurements, updateAllMeasurements_flags] at hi hj
    simp only [List.map_map] at hi hj
    exact ih i j hi hj
  · simp only [List.map_map] at hi hj
    exact ih i j hi hj

theorem reachable_flags_unique (fuel : Nat) (sqrt : K → K) (st : RulerState K)
    (hr : Reachable fuel sqrt st) :
    ∀ i j : Nat, (st.measurements.map (fun m => m.selected))[i]? = some true →
      (st.measurements.map (fun m => m.selected))[j]? = some true → i = j := by
  induction hr with
  | initial =>
    intro i j hi _
    simp [RulerState.initial] at hi
  | add sc st _ _ =>
    intro i j hi hj
    rw [addMeasurement_flag_true fuel sqrt sc st i hi, addMeasurement_flag_true fuel sqrt sc st j hj]
  | remove idx st _ ih =>
    intro i j hi hj
    by_cases hv : idx < 0 ∨ idx ≥ st.measurements.length
    · rw [removeMeasurement_noop st idx hv] at hi hj
      exact ih i j hi hj
    · rw [removeMeasurement_measurements st idx (by omega) (by omega)] at hi hj
      exact flags_unique_of_decide _ _ i j hi hj
  | toggle sc st _ ih => exact toggleRulerMode_flags_unique fuel sqrt sc st ih
  | select idx st _ _ _ _ =>
    intro i j hi hj
    exact flags_unique_of_decide st.measurements idx i j hi hj
  | unit st _ ih =>
    intro i j hi hj
    unfold toggleUseMetric at hi hj
    rw [updateAllMeasurements_flags] at hi hj
    exact ih i j hi hj
  | movePoint sc idx p x y st _ ih =>
    intro i j hi hj
    rw [updateRulerPointPosition_flags] at hi hj
    exact ih i j hi hj
  | load t b m st _ ih => exact ih

end ReachLemmas

section ReachTheorems

variable {K : Type} [LinearOrderedField K] [FloorRing K]

/-- C13: in every state reachable from the initial globals by `addMeasurement`,
`removeMeasurement` with any integer, `toggleRulerMode`, `selectMeasurement`
with an index of the array or `-1`, a unit toggle, an endpoint move or a model
load, the selected index `s` satisfies `-1 ≤ s ≤ count - 1`; it is `-1` when the
store is empty; at most one position equals `s`; and at most one measurement
carries the class `selected`. -/
theorem reachable_selected_index (fuel : Nat) (sqrt : K → K) (st : RulerState K)
    (hr : Reachable fuel sqrt st) :
    -1 ≤ st.selectedMeasurementIndex ∧
    st.selectedMeasurementIndex ≤ (st.measurements.length : Int) - 1 ∧
    (st.measurements = [] → st.selectedMeasurementIndex = -1) ∧
    (∀ i j : Nat, (i : Int) = st.selectedMeasurementIndex →
      (j : Int) = st.selectedMeasurementIndex → i = j) ∧
    (∀ i j : Nat, (st.measurements.map (fun m => m.selected))[i]? = some true →
      (st.measurements.map (fun m => m.selected))[j]? = some true → i = j) := by
  obtain ⟨h1, h2⟩ := reachable_selected_range fuel sqrt st hr
  refine ⟨h1, by omega, ?_, ?_, reachable_flags_unique fuel sqrt st hr⟩
  · intro he
    rw [he] at h2
    simp only [List.length_nil, Nat.cast_zero] at h2
    omega
  · intro i j hi hj
    omega

/-- Witness for C13: the state after one `addMeasurement` from the initial
globals. -/
theorem reachable_selected_index_witness :
    -1 ≤ (addMeasurement 4 ratSqrt sampleScene RulerState.initial).selectedMeasurementIndex :=
  (reachable_selected_index 4 ratSqrt _
    (Reachable.add sampleScene RulerState.initial Reachable.initial)).1

end ReachTheorems

section LastChar

variable {K : Type} [LinearOrderedField K] [FloorRing K]

theorem getLast?_append_two (s : String) (a b : Char) :
    (s ++ String.mk [a, b]).data.getLast? = some b := by
  rw [String.data_append]
  simp [List.getLast?_append]

theorem getLast?_append_one (s : String) (b : Char) :
    (s ++ String.mk [b]).data.getLast? = some b := by
  rw [String.data_append]
  simp [List.getLast?_append]

theorem formatDistance_metric_last (fuel : Nat) (d : K) :
    ∃ s, formatDistance fuel true d = some s ∧ s.data.getLast? = some 'm' := by
  simp only [formatDistance, if_true]
  split_ifs
  · exact ⟨_, rfl, getLast?_append_two _ ' ' 'm'⟩
  · refine ⟨_, rfl, ?_⟩
    have : (" cm" : String) = String.mk [' ', 'c'] ++ String.mk ['m'] := rfl
    rw [this, ← String.append_assoc]
    exact getLast?_append_one _ 'm'
  · refine ⟨_, rfl, ?_⟩
    have : (" mm" : String) = String.mk [' ', 'm'] ++ String.mk ['m'] := rfl
    rw [this, ← String.append_assoc]
    exact getLast?_append_one _ 'm'

theorem formatDistance_imperial_last (fuel : Nat) (hfuel : 4 ≤ fuel) (d : K) :
    ∃ s, formatDistance fuel false d = some s ∧
      (s.data.getLast? = some '\'' ∨ s.data.getLast? = some '"') := by
  simp only [formatDistance, Bool.false_eq_true, if_false]
  split_ifs
  · exact ⟨_, rfl, Or.inl (getLast?_append_one _ '\'')⟩
  · obtain ⟨s, hs⟩ := inchesToFraction_total fuel hfuel (fmod (d * 39.3701) 12)
    rw [hs]
    exact ⟨_, rfl, Or.inr (getLast?_append_one _ '"')⟩
  · obtain ⟨s, hs⟩ := inchesToFraction_total fuel hfuel (d * 39.3701)
    rw [hs]
    exact ⟨_, rfl, Or.inr (getLast?_append_one _ '"')⟩

theorem formatDistance_units_differ (fuel : Nat) (hfuel : 4 ≤ fuel) (u : Bool) (d e : K) :
    formatDistance fuel (!u) d ≠ formatDistance fuel u e := by
  obtain ⟨s, hs, hsl⟩ := formatDistance_metric_last fuel d
  obtain ⟨t, ht, htl⟩ := formatDistance_imperial_last fuel hfuel e
  obtain ⟨s2, hs2, hsl2⟩ := formatDistance_metric_last fuel e
  obtain ⟨t2, ht2, htl2⟩ := formatDistance_imperial_last fuel hfuel d
  cases u with
  | false =>
    simp only [Bool.not_false]
    rw [hs, ht]
    intro h
    cases h
    rw [hsl] at htl
    rcases htl with h | h <;> exact absurd h (by decide)
  | true =>
    simp only [Bool.not_true]
    rw [hs2, ht2]
    intro h
    cases h
    rw [hsl2] at htl2
    rcases htl2 with h | h <;> exact absurd h (by decide)

end LastChar

section LabelLemmas

variable {K : Type} [LinearOrderedField K] [FloorRing K]

theorem updateAllMeasurements_rulerMode (fuel : Nat) (sqrt : K → K) (st : RulerState K) :
    (updateAllMeasurements fuel sqrt st).rulerMode = st.rulerMode := by
  rw [updateAllMeasurements_frame]

theorem updateAllMeasurements_useMetric (fuel : Nat) (sqrt : K → K) (st : RulerState K) :
    (updateAllMeasurements fuel sqrt st).useMetric = st.useMetric := by
  rw [updateAllMeasurements_frame]

theorem addMeasurement_modes (fuel : Nat) (sqrt : K → K) (sc : Scene K) (st : RulerState K) :
    (addMeasurement fuel sqrt sc st).rulerMode = st.rulerMode ∧
      (addMeasurement fuel sqrt sc st).useMetric = st.useMetric := by
  unfold addMeasurement
  simp only
  rw [updateMeasurementLine_frame]
  exact ⟨rfl, rfl⟩

theorem removeMeasurement_modes (st : RulerState K) (i : Int) :
    (removeMeasurement st i).rulerMode = st.rulerMode ∧
      (removeMeasurement st i).useMetric = st.useMetric := by
  unfold removeMeasurement
  simp only
  split_ifs <;> exact ⟨rfl, rfl⟩

theorem updateRulerPointPosition_modes (fuel : Nat) (sqrt : K → K) (sc : Scene K)
    (st : RulerState K) (i pointNum : Int) (x y : K) :
    (updateRulerPointPosition fuel sqrt sc st i pointNum x y).rulerMode = st.rulerMode ∧
      (updateRulerPointPosition fuel sqrt sc st i pointNum x y).useMetric = st.useMetric := by
  rw [updateRulerPointPosition_frame]
  exact ⟨rfl, rfl⟩

theorem addMeasurement_labels (fuel : Nat) (sqrt : K → K) (sc : Scene K) (st : RulerState K)
    (hmode : st.rulerMode = true)
    (ih : ∀ m ∈ st.measurements, ∃ d : K, m.textContent = formatDistance fuel st.useMetric d) :
    ∀ m ∈ (addMeasurement fuel sqrt sc st).measurements,
      ∃ d : K, m.textContent = formatDistance fuel st.useMetric d := by
  intro m hm
  obtain ⟨j, hj⟩ := List.mem_iff_getElem?.1 hm
  rw [addMeasurement_getElem?] at hj
  split_ifs at hj with h1 h2
  · cases h0 : st.measurements[j]? with
    | none => rw [h0] at hj; cases hj
    | some m0 =>
      rw [h0] at hj
      simp only [Option.map_some', Option.some.injEq] at hj
      obtain ⟨d, hd⟩ := ih m0 (List.getElem?_mem h0)
      exact ⟨d, by rw [← hj]; exact hd⟩
  · simp only [Option.some.injEq] at hj
    rw [← hj]
    simp only [hmode, if_true]
    exact ⟨_, rfl⟩

theorem removeMeasurement_labels (st : RulerState K) (i : Int) (P : Option String → Prop)
    (ih : ∀ m ∈ st.measurements, P m.textContent) :
    ∀ m ∈ (removeMeasurement st i).measurements, P m.textContent := by
  by_cases hv : i < 0 ∨ i ≥ st.measurements.length
  · rw [removeMeasurement_noop st i hv]; exact ih
  · intro m hm
    obtain ⟨j, hj⟩ := List.mem_iff_getElem?.1 hm
    rw [removeMeasurement_getElem? st i (by omega) (by omega)] at hj
    cases h0 : (st.measurements.eraseIdx i.toNat)[j]? with
    | none => rw [h0] at hj; cases hj
    | some m0 =>
      rw [h0] at hj
      simp only [Option.map_some', Option.some.injEq] at hj
      rw [← hj]
      exact ih m0 (List.mem_of_mem_eraseIdx (List.getElem?_mem h0))

theorem updateAllMeasurements_labels (fuel : Nat) (sqrt : K → K) (st : RulerState K)
    (hmode : st.rulerMode = true) :
    ∀ m ∈ (updateAllMeasurements fuel sqrt st).measurements,
      ∃ d : K, m.textContent = formatDistance fuel st.useMetric d := by
  intro m hm
  obtain ⟨j, hj⟩ := List.mem_iff_getElem?.1 hm
  rw [updateAllMeasurements_getElem?, if_pos hmode] at hj
  cases h0 : st.measurements[j]? with
  | none => rw [h0] at hj; cases hj
  | some m0 =>
    rw [h0] at hj
    simp only [Option.map_some', Option.some.injEq] at hj
    rw [← hj]
    exact ⟨_, rfl⟩

theorem updateRulerPointPosition_labels (fuel : Nat) (sqrt : K → K) (sc : Scene K)
    (st : RulerState K) (i pointNum : Int) (x y : K) (hmode : st.rulerMode = true)
    (ih : ∀ m ∈ st.measurements, ∃ d : K, m.textContent = formatDistance fuel st.useMetric d) :
    ∀ m ∈ (updateRulerPointPosition fuel sqrt sc st i pointNum x y).measurements,
      ∃ d : K, m.textContent = formatDistance fuel st.useMetric d := by
  cases hm : measurementAt st.measurements i with
  | none =>
    simp only [updateRulerPointPosition, hm]
    exact ih
  | some m0 =>
    have hi0 : 0 ≤ i := by
      by_contra hneg
      simp [measurementAt, hneg] at hm
    obtain ⟨n, rfl⟩ := Int.eq_ofNat_of_zero_le hi0
    rw [measurementAt_natCast] at hm
    have hlt : n < st.measurements.length := by
      by_contra hcon
      rw [List.getElem?_eq_none (by omega)] at hm
      cases hm
    intro m hmem
    obtain ⟨j, hj⟩ := List.mem_iff_getElem?.1 hmem
    simp only [updateRulerPointPosition, measurementAt_natCast, hm,
      updateMeasurementLine_getElem?, Int.toNat_ofNat, hmode, true_and] at hj
    by_cases hjn : j = n
    · subst hjn
      rw [if_pos rfl, List.getElem?_set_self hlt] at hj
      simp only [Option.map_some', Option.some.injEq] at hj
      rw [← hj]
      exact ⟨_, rfl⟩
    · rw [if_neg hjn, List.getElem?_set_ne (Ne.symm hjn)] at hj
      exact ih m (List.getElem?_mem hj)

theorem toggleRulerMode_modes (fuel : Nat) (sqrt : K → K) (sc : Scene K) (st : RulerState K) :
    (toggleRulerMode fuel sqrt sc st).rulerMode = (!st.rulerMode) ∧
      (toggleRulerMode fuel sqrt sc st).useMetric = st.useMetric := by
  unfold toggleRulerMode
  simp only
  split_ifs
  · have h := addMeasurement_modes fuel sqrt sc { st with rulerMode := !st.rulerMode }
    exact ⟨h.1, h.2⟩
  · constructor
    · show (updateAllMeasurements fuel sqrt _).rulerMode = _
      rw [updateAllMeasurements_rulerMode]
    · show (updateAllMeasurements fuel sqrt _).useMetric = _
      rw [updateAllMeasurements_useMetric]
  · exact ⟨rfl, rfl⟩

theorem toggleRulerMode_labels (fuel : Nat) (sqrt : K → K) (sc : Scene K) (st : RulerState K)
    (hoff : st.rulerMode = false) :
    ∀ m ∈ (toggleRulerMode fuel sqrt sc st).measurements,
      ∃ d : K, m.textContent = formatDistance fuel st.useMetric d := by
  unfold toggleRulerMode
  simp only [hoff, Bool.not_false, if_true]
  split_ifs with h
  · rw [updateRemoveButtonState_measurements]
    apply addMeasurement_labels fuel sqrt sc { st with rulerMode := true } rfl
    intro m hm
    have hnil : st.measurements = [] := List.eq_nil_of_length_eq_zero h
    simp only [hnil, List.not_mem_nil] at hm
  · rw [updateRemoveButtonState_measurements]
    exact updateAllMeasurements_labels fuel sqrt _ rfl

theorem reachable_labels (fuel : Nat) (sqrt : K → K) (st : RulerState K)
    (hr : Reachable fuel sqrt st) :
    st.rulerMode = true →
      ∀ m ∈ st.measurements, ∃ d : K, m.textContent = formatDistance fuel st.useMetric d := by
  induction hr with
  | initial =>
    intro h
    simp [RulerState.initial] at h
  | add sc st _ ih =>
    intro h
    obtain ⟨h1, h2⟩ := addMeasurement_modes fuel sqrt sc st
    rw [h1] at h
    rw [h2]
    exact addMeasurement_labels fuel sqrt sc st h (ih h)
  | remove i st _ ih =>
    intro h
    obtain ⟨h1, h2⟩ := removeMeasurement_modes st i
    rw [h1] at h
    rw [h2]
    exact removeMeasurement_labels st i
      (fun t => ∃ d : K, t = formatDistance fuel st.useMetric d) (ih h)
  | toggle sc st _ _ =>
    intro h
    obtain ⟨h1, h2⟩ := toggleRulerMode_modes fuel sqrt sc st
    rw [h1] at h
    rw [h2]
    have hoff : st.rulerMode = false := by
      cases hs : st.rulerMode with
      | false => rfl
      | true => rw [hs] at h; cases h
    exact toggleRulerMode_labels fuel sqrt sc st hoff
  | select idx st _ _ _ ih =>
    intro h
    have h' : st.rulerMode = true := h
    intro m hm
    obtain ⟨j, hj⟩ := List.mem_iff_getElem?.1 hm
    simp only [selectMeasurement, updateRemoveButtonState_measurements, updateSelectionVisuals,
      List.getElem?_mapIdx] at hj
    cases h0 : st.measurements[j]? with
    | none => rw [h0] at hj; cases hj
    | some m0 =>
      rw [h0] at hj
      simp only [Option.map_some', Option.some.injEq] at hj
      obtain ⟨d, hd⟩ := ih h' m0 (List.getElem?_mem h0)
      exact ⟨d, by rw [← hj]; exact hd⟩
  | unit st _ _ =>
    intro h
    unfold toggleUseMetric at h ⊢
    rw [updateAllMeasurements_rulerMode] at h
    rw [updateAllMeasurements_useMetric]
    exact updateAllMeasurements_labels fuel sqrt _ h
  | movePoint sc i p x y st _ ih =>
    intro h
    obtain ⟨h1, h2⟩ := updateRulerPointPosition_modes fuel sqrt sc st i p x y
    rw [h1] at h
    rw [h2]
    exact updateRulerPointPosition_labels fuel sqrt sc st i p x y h (ih h)
  | load t b m st _ ih => exact ih

end LabelLemmas

section UnitTheorems

variable {K : Type} [LinearOrderedField K] [FloorRing K]

/-- C17: in a reachable state with ruler mode active and a loop bound of at
least four, a click on a measurement label flips `useMetric`, keeps the selected
index, the number of entries and every pair of world points, and sets every
label to `formatDistance` of that measurement's distance under the new
preference, which differs from the text the label had. -/
theorem toggleUseMetric_rerenders (fuel : Nat) (hfuel : 4 ≤ fuel) (sqrt : K → K)
    (st : RulerState K) (hr : Reachable fuel sqrt st) (hmode : st.rulerMode = true) :
    (toggleUseMetric fuel sqrt st).useMetric = (!st.useMetric) ∧
    (toggleUseMetric fuel sqrt st).selectedMeasurementIndex = st.selectedMeasurementIndex ∧
    (toggleUseMetric fuel sqrt st).measurements.length = st.measurements.length ∧
    (toggleUseMetric fuel sqrt st).measurements.map Measurement.worldPoints =
      st.measurements.map Measurement.worldPoints ∧
    (∀ (j : Nat) (m : Measurement K), st.measurements[j]? = some m →
      ∃ m1 : Measurement K, (toggleUseMetric fuel sqrt st).measurements[j]? = some m1 ∧
        m1.point1World = m.point1World ∧ m1.point2World = m.point2World ∧
        m1.textContent = formatDistance fuel (!st.useMetric)
          (originalDistance sqrt st.modelScaleFactor st.modelUnitConversion
            m.point1World m.point2World) ∧
        m1.textContent ≠ m.textContent) := by
  have hlab := reachable_labels fuel sqrt st hr hmode
  have hget : ∀ j : Nat, (toggleUseMetric fuel sqrt st).measurements[j]? =
      (st.measurements[j]?).map (fun m => { m with
        textContent := formatDistance fuel (!st.useMetric)
          (originalDistance sqrt st.modelScaleFactor st.modelUnitConversion
            m.point1World m.point2World) }) := by
    intro j
    unfold toggleUseMetric
    rw [updateAllMeasurements_getElem?]
    simp only [hmode, if_true]
  refine ⟨?_, ?_, ?_, ?_, ?_⟩
  · unfold toggleUseMetric
    rw [updateAllMeasurements_useMetric]
  · unfold toggleUseMetric
    rw [updateAllMeasurements_selected]
  · unfold toggleUseMetric
    rw [updateAllMeasurements_length]
  · apply List.ext_getElem?
    intro j
    simp only [List.getElem?_map, hget, Option.map_map]
    rfl
  · intro j m hm
    have h1 := hget j
    rw [hm, Option.map_some'] at h1
    refine ⟨_, h1, rfl, rfl, rfl, ?_⟩
    obtain ⟨d, hd⟩ := hlab m (List.getElem?_mem hm)
    rw [hd]
    exact formatDistance_units_differ fuel hfuel st.useMetric _ d

/-- Witness for C17: the state after `toggleRulerMode` from the initial
globals, which holds one measurement. -/
theorem toggleUseMetric_rerenders_witness :
    (toggleUseMetric 4 ratSqrt
        (toggleRulerMode 4 ratSqrt sampleScene RulerState.initial)).measurements.length =
      (toggleRulerMode 4 ratSqrt sampleScene RulerState.initial).measurements.length :=
  (toggleUseMetric_rerenders 4 (le_refl 4) ratSqrt
    (toggleRulerMode 4 ratSqrt sampleScene RulerState.initial)
    (Reachable.toggle sampleScene RulerState.initial Reachable.initial)
    (toggleRulerMode_modes 4 ratSqrt sampleScene RulerState.initial).1).2.2.1

end UnitTheorems

/-! ## Degenerate segments, missing hits and default placement -/

section EasyOnes

variable {K : Type} [LinearOrderedField K]

/-- C18: on a segment from `a` to `a`, whatever the square root function, the
direction vector is zero and stays zero under `normalize`, the clamped
projection parameter is `0`, and `closestPointOnLineSegment p a a` is `a`. -/
theorem closestPointOnLineSegment_degenerate (sqrt : K → K) (p a : Vector3 K) :
    Vector3.subVectors a a = ⟨0, 0, 0⟩ ∧
    Vector3.normalize sqrt (Vector3.subVectors a a) = ⟨0, 0, 0⟩ ∧
    max 0 (min (Vector3.length sqrt (Vector3.subVectors a a))
      (Vector3.dot (Vector3.subVectors p a)
        (Vector3.normalize sqrt (Vector3.subVectors a a)))) = 0 ∧
    closestPointOnLineSegment sqrt p a a = a := by
  have hsub : Vector3.subVectors a a = ⟨0, 0, 0⟩ := by
    simp [Vector3.subVectors]
  have hnorm : Vector3.normalize sqrt (Vector3.subVectors a a) = ⟨0, 0, 0⟩ := by
    rw [hsub]
    simp [Vector3.normalize, Vector3.divideScalar, Vector3.multiplyScalar]
  have hdot : Vector3.dot (Vector3.subVectors p a)
      (Vector3.normalize sqrt (Vector3.subVectors a a)) = 0 := by
    rw [hnorm]; simp [Vector3.dot]
  refine ⟨hsub, hnorm, ?_, ?_⟩
  · rw [hdot]
    exact max_eq_left (min_le_right _ _)
  · simp only [closestPointOnLineSegment, hnorm]
    simp [Vector3.addScaledVector]

/-- C19: `raycastToSurface` returns `null` when no model is loaded, and also when
a model is loaded and the ray caster reports no intersection. -/
theorem raycastToSurface_null (sqrt : K → K) (sc : Scene K) (modelScaleFactor : K)
    (screenX screenY : K) :
    (sc.currentModel = false →
      raycastToSurface sqrt sc modelScaleFactor screenX screenY = none) ∧
    (sc.currentModel = true →
      sc.intersectObject (ndcX sc screenX) (ndcY sc screenY) = [] →
      raycastToSurface sqrt sc modelScaleFactor screenX screenY = none) := by
  constructor
  · intro h
    simp [raycastToSurface, h]
  · intro _ h
    simp only [raycastToSurface, h]
    split_ifs <;> rfl

end EasyOnes

section DefaultPlacement

variable {K : Type} [LinearOrderedField K]

/-- C20: in a viewport of 800 by 600 pixels whose rectangle starts at `(100, 60)`,
the two default screen points of `addMeasurement` convert to the normalized
device coordinates `(-3/8, 1/5)` and `(-1/8, 1/5)`, not to `(-1/8, 0)` and
`(1/8, 0)`; the conversion gives `(-100 / width, 0)` and `(100 / width, 0)` when
the rectangle starts at `(0, 0)`. -/
theorem addMeasurement_default_points_offset :
    ndcX offsetScene (offsetScene.clientWidth / 2 - 50) = -3 / 8 ∧
    ndcX offsetScene (offsetScene.clientWidth / 2 + 50) = -1 / 8 ∧
    ndcY offsetScene (offsetScene.clientHeight / 2) = 1 / 5 ∧
    ndcX offsetScene (offsetScene.clientWidth / 2 - 50) ≠ -100 / offsetScene.clientWidth ∧
    ndcX offsetScene (offsetScene.clientWidth / 2 + 50) ≠ 100 / offsetScene.clientWidth ∧
    ndcY offsetScene (offsetScene.clientHeight / 2) ≠ 0 ∧
    (addMeasurement 4 ratSqrt offsetScene RulerState.initial).measurements.map
        Measurement.worldPoints = [(⟨-3 / 8, 1 / 5, 0⟩, ⟨-1 / 8, 1 / 5, 0⟩)] ∧
    (∀ sc : Scene K, sc.rectLeft = 0 → sc.rectTop = 0 → 0 < sc.clientWidth →
      0 < sc.clientHeight →
      ndcX sc (sc.clientWidth / 2 - 50) = -100 / sc.clientWidth ∧
      ndcX sc (sc.clientWidth / 2 + 50) = 100 / sc.clientWidth ∧
      ndcY sc (sc.clientHeight / 2) = 0) := by
  refine ⟨by decide!, by decide!, by decide!, by decide!, by decide!, by decide!, by decide!,
    ?_⟩
  intro sc hl ht hw hh
  have hw0 : sc.clientWidth ≠ 0 := ne_of_gt hw
  have hh0 : sc.clientHeight ≠ 0 := ne_of_gt hh
  simp only [ndcX, ndcY, hl, ht, sub_zero]
  refine ⟨?_, ?_, ?_⟩
  · field_simp; ring
  · field_simp; ring
  · field_simp; ring

end DefaultPlacement

/-! ## Snap threshold, carry into feet, drag lock, label flip -/

section ThresholdLemmas

variable {K : Type} [LinearOrderedField K]

/-- The world threshold `0.5 / s` of the probe, taken to original units by the
division of viewer.js 1078, is `0.5 / (s * s)`. -/
theorem worldToOriginal_snapThreshold (s : K) :
    worldToOriginal s (snapThreshold s) = 0.5 / (s * s) := by
  simp only [worldToOriginal, snapThreshold, div_div]

/-- The comparison of `snapDecision` is against `snapThreshold s` and its half,
both world distances. -/
theorem snapDecision_threshold (sqrt : K → K) (hitPoint : Vector3 K) (f : Face K) (s : K) :
    snapDecision sqrt s hitPoint f =
      (if (closestVertexLoop sqrt hitPoint f.vertices).2 <
          ((snapThreshold s * 0.5 : K) : WithTop K) then
        (closestVertexLoop sqrt hitPoint f.vertices).1
      else if (closestEdgeLoop sqrt hitPoint f.edges).2 <
          ((snapThreshold s : K) : WithTop K) then
        (closestEdgeLoop sqrt hitPoint f.edges).1
      else some hitPoint) :=
  rfl

end ThresholdLemmas

section ThresholdTheorems

/-- C21: the snap threshold is not one fixed distance in original units. Taken
to original units by the division of viewer.js 1078 it is `1/2` for scale
factor 1, `1/8` for scale factor 2 and `8192/25` for scale factor `5/128`. A
model whose bounding box is a cube of side 128 gets the scale factor `5/128`;
on its face with world vertices `(0,0,0)`, `(3,0,0)`, `(3/2,2,0)` a hit at
`(3/2,0,0)`, the middle of the first edge, lies `3/2` world units, that is
`192/5` original units, from the nearest vertex, and the probe returns the
vertex `(0,0,0)`; with scale factor 1 the same hit returns the edge point
`(3/2,0,0)`. -/
theorem snapThreshold_scale_dependent :
    worldToOriginal (1 : ℚ) (snapThreshold 1) = 1 / 2 ∧
    worldToOriginal (2 : ℚ) (snapThreshold 2) = 1 / 8 ∧
    worldToOriginal (5 / 128 : ℚ) (snapThreshold (5 / 128)) = 8192 / 25 ∧
    (finalizeModel "stl" (⟨⟨0, 0, 0⟩, ⟨128, 128, 128⟩⟩ : Box3 ℚ)
      Object3D.identity).modelScaleFactor = 5 / 128 ∧
    (closestVertexLoop ratSqrt (⟨3 / 2, 0, 0⟩ : Vector3 ℚ)
      (Face.vertices ⟨⟨0, 0, 0⟩, ⟨3, 0, 0⟩, ⟨3 / 2, 2, 0⟩⟩)).2 = ((3 / 2 : ℚ) : WithTop ℚ) ∧
    worldToOriginal (5 / 128 : ℚ) (3 / 2) = 192 / 5 ∧
    snapDecision ratSqrt (5 / 128 : ℚ) ⟨3 / 2, 0, 0⟩ ⟨⟨0, 0, 0⟩, ⟨3, 0, 0⟩, ⟨3 / 2, 2, 0⟩⟩ =
      some ⟨0, 0, 0⟩ ∧
    snapDecision ratSqrt (1 : ℚ) ⟨3 / 2, 0, 0⟩ ⟨⟨0, 0, 0⟩, ⟨3, 0, 0⟩, ⟨3 / 2, 2, 0⟩⟩ =
      some ⟨3 / 2, 0, 0⟩ := by
  refine ⟨by decide!, by decide!, by decide!, by decide!, by decide!, by decide!, by decide!,
    by decide!⟩

end ThresholdTheorems

section CarryTheorems

/-- C24: with the metric preference off, a distance of `0.6095` has at least
twelve total inches, the inch text of its remainder is `12`, and the result is
one foot followed by twelve inches: the remainder that rounds up to twelve is
not carried into the feet term. -/
theorem formatDistance_twelve_inches_not_carried :
    formatDistance 4 false (0.6095 : ℚ) = some "1' 12\"" ∧
    (12 : ℚ) ≤ 0.6095 * 39.3701 ∧
    inchesToFraction 4 (fmod ((0.6095 : ℚ) * 39.3701) 12) = some "12" := by
  refine ⟨by decide!, by norm_num, by decide!⟩

end CarryTheorems

section DragLemmas

variable {K : Type} [LinearOrderedField K] [FloorRing K]

theorem pointPress_drag (st : RulerState K) (idx pointNum : Int) :
    (pointPress st idx pointNum).isDraggingRulerPoint = some (idx, pointNum) ∧
      (pointPress st idx pointNum).controlsEnabled = false :=
  ⟨rfl, rfl⟩

theorem pointerMove_drag (fuel : Nat) (sqrt : K → K) (sc : Scene K) (st : RulerState K)
    (x y : K) :
    (pointerMove fuel sqrt sc st x y).isDraggingRulerPoint = st.isDraggingRulerPoint ∧
      (pointerMove fuel sqrt sc st x y).controlsEnabled = st.controlsEnabled := by
  unfold pointerMove
  split
  · exact ⟨rfl, rfl⟩
  · split_ifs
    · exact ⟨rfl, rfl⟩
    · rw [updateRulerPointPosition_frame]
      exact ⟨rfl, rfl⟩

theorem pointerRelease_drag (st : RulerState K)
    (h : st.isDraggingRulerPoint = none → st.controlsEnabled = true) :
    (pointerRelease st).isDraggingRulerPoint = none ∧
      (pointerRelease st).controlsEnabled = true := by
  unfold pointerRelease
  split
  · rename_i hnone
    exact ⟨hnone, h hnone⟩
  · exact ⟨rfl, rfl⟩

theorem runPointerEvents_drag (fuel : Nat) (sqrt : K → K) (events : List (PointerEvent K))
    (st : RulerState K)
    (h : (st.isDraggingRulerPoint = none → st.controlsEnabled = true) ∧
      (st.isDraggingRulerPoint ≠ none → st.controlsEnabled = false)) :
    ((runPointerEvents fuel sqrt st events).isDraggingRulerPoint = none →
        (runPointerEvents fuel sqrt st events).controlsEnabled = true) ∧
      ((runPointerEvents fuel sqrt st events).isDraggingRulerPoint ≠ none →
        (runPointerEvents fuel sqrt st events).controlsEnabled = false) := by
  induction events generalizing st with
  | nil => exact h
  | cons ev rest ih =>
    unfold runPointerEvents
    rw [List.foldl_cons]
    apply ih
    cases ev with
    | press idx pointNum =>
      obtain ⟨h1, h2⟩ := pointPress_drag st idx pointNum
      simp only [pointerStep]
      constructor
      · intro hn; rw [h1] at hn; cases hn
      · intro _; exact h2
    | move sc x y =>
      obtain ⟨h1, h2⟩ := pointerMove_drag fuel sqrt sc st x y
      simp only [pointerStep]
      rw [h1, h2]
      exact h
    | release =>
      obtain ⟨h1, h2⟩ := pointerRelease_drag st h.1
      simp only [pointerStep]
      constructor
      · intro _; exact h2
      · intro hn; exact absurd h1 hn

end DragLemmas

section DragTheorems

variable {K : Type} [LinearOrderedField K] [FloorRing K]

/-- C23: from a state without a drag and with camera controls enabled, after
any sequence of press, move and release events an active drag implies disabled
controls and no drag implies enabled controls; after a further release the drag
is `null` and the controls are enabled; after a further press on an endpoint the
drag is that endpoint and the controls are disabled. -/
theorem drag_disables_controls (fuel : Nat) (sqrt : K → K) (st0 : RulerState K)
    (events : List (PointerEvent K)) (hdrag : st0.isDraggingRulerPoint = none)
    (hctl : st0.controlsEnabled = true) :
    ((runPointerEvents fuel sqrt st0 events).isDraggingRulerPoint ≠ none →
      (runPointerEvents fuel sqrt st0 events).controlsEnabled = false) ∧
    ((runPointerEvents fuel sqrt st0 events).isDraggingRulerPoint = none →
      (runPointerEvents fuel sqrt st0 events).controlsEnabled = true) ∧
    (runPointerEvents fuel sqrt st0 (events ++ [PointerEvent.release])).isDraggingRulerPoint =
      none ∧
    (runPointerEvents fuel sqrt st0 (events ++ [PointerEvent.release])).controlsEnabled =
      true ∧
    (∀ idx pointNum : Int,
      (runPointerEvents fuel sqrt st0
          (events ++ [PointerEvent.press idx pointNum])).isDraggingRulerPoint =
        some (idx, pointNum) ∧
      (runPointerEvents fuel sqrt st0
          (events ++ [PointerEvent.press idx pointNum])).controlsEnabled = false) := by
  have h0 : (st0.isDraggingRulerPoint = none → st0.controlsEnabled = true) ∧
      (st0.isDraggingRulerPoint ≠ none → st0.controlsEnabled = false) :=
    ⟨fun _ => hctl, fun hn => absurd hdrag hn⟩
  obtain ⟨h1, h2⟩ := runPointerEvents_drag fuel sqrt events st0 h0
  have hrel := pointerRelease_drag (runPointerEvents fuel sqrt st0 events) h1
  refine ⟨h2, h1, ?_, ?_, ?_⟩
  · simp only [runPointerEvents, List.foldl_append, List.foldl_cons, List.foldl_nil, pointerStep]
    exact hrel.1
  · simp only [runPointerEvents, List.foldl_append, List.foldl_cons, List.foldl_nil, pointerStep]
    exact hrel.2
  · intro idx pointNum
    simp only [runPointerEvents, List.foldl_append, List.foldl_cons, List.foldl_nil, pointerStep]
    exact pointPress_drag _ idx pointNum

/-- Witness for C23: press, move, release on the sample store. -/
theorem drag_disables_controls_witness :
    (runPointerEvents 4 ratSqrt sampleStore
        ([PointerEvent.press 0 1, PointerEvent.move sampleScene 10 20] ++
          [PointerEvent.release])).controlsEnabled = true :=
  (drag_disables_controls 4 ratSqrt sampleStore
    [PointerEvent.press 0 1, PointerEvent.move sampleScene 10 20] rfl rfl).2.2.2.1

end DragTheorems

section FlipLemmas

theorem labelFlipped_iff {K : Type} [LinearOrderedField K] (angle : K) :
    labelFlipped angle = true ↔ 90 < |angle| := by
  simp only [labelFlipped, Bool.or_eq_true, decide_eq_true_eq, gt_iff_lt, lt_abs]
  constructor
  · rintro (h | h)
    · exact Or.inl h
    · exact Or.inr (by linarith)
  · rintro (h | h)
    · exact Or.inl h
    · exact Or.inr (by linarith)

theorem lineAngle_arg (dx dy : ℝ) :
    lineAngle (fun y x => Complex.arg ⟨x, y⟩) Real.pi dx dy =
      Complex.arg ⟨dx, dy⟩ * (180 / Real.pi) := rfl

theorem lineAngle_range (dx dy : ℝ) :
    -180 < lineAngle (fun y x => Complex.arg ⟨x, y⟩) Real.pi dx dy ∧
      lineAngle (fun y x => Complex.arg ⟨x, y⟩) Real.pi dx dy ≤ 180 := by
  rw [lineAngle_arg]
  have hpi := Real.pi_pos
  have h1 := Complex.neg_pi_lt_arg ⟨dx, dy⟩
  have h2 := Complex.arg_le_pi ⟨dx, dy⟩
  have hc : 0 < 180 / Real.pi := by positivity
  have e : Real.pi * (180 / Real.pi) = 180 := by field_simp
  constructor
  · have := mul_lt_mul_of_pos_right h1 hc
    rw [neg_mul, e] at this
    exact this
  · have := mul_le_mul_of_nonneg_right h2 (le_of_lt hc)
    rw [e] at this
    exact this

theorem lineAngle_abs_gt_iff (dx dy : ℝ) :
    90 < |lineAngle (fun y x => Complex.arg ⟨x, y⟩) Real.pi dx dy| ↔ dx < 0 := by
  rw [lineAngle_arg]
  have hpi := Real.pi_pos
  have hc : 0 < 180 / Real.pi := by positivity
  have habs : |Complex.arg ⟨dx, dy⟩ * (180 / Real.pi)| =
      |Complex.arg ⟨dx, dy⟩| * (180 / Real.pi) := by
    rw [abs_mul, abs_of_pos hc]
  have e : Real.pi / 2 * (180 / Real.pi) = 90 := by field_simp; ring
  have key := @Complex.abs_arg_le_pi_div_two_iff ⟨dx, dy⟩
  simp only at key
  rw [habs, ← not_le, ← not_le, ← key]
  constructor
  · intro h hle
    apply h
    have := mul_le_mul_of_nonneg_right hle (le_of_lt hc)
    rw [e] at this
    exact this
  · intro h hle
    apply h
    rw [← e] at hle
    exact le_of_mul_le_mul_right hle hc

end FlipLemmas

section FlipTheorems

/-- C22: over the reals, with `atan2 dy dx` the argument of `dx + dy i`, the
flip condition of `updateMeasurementLine` holds exactly when the absolute value
of the angle in degrees exceeds 90, which is exactly when `dx < 0`; the label
gets the style with `rotate(180deg)` and `top` of `8px` exactly then; and the
line angle plus the label's own rotation is, up to full turns, within
`[-90, 90]` degrees. -/
theorem label_flip_iff_dx_negative (dx dy : ℝ) :
    (labelFlipped (lineAngle (fun y x => Complex.arg ⟨x, y⟩) Real.pi dx dy) = true ↔
      90 < |lineAngle (fun y x => Complex.arg ⟨x, y⟩) Real.pi dx dy|) ∧
    (90 < |lineAngle (fun y x => Complex.arg ⟨x, y⟩) Real.pi dx dy| ↔ dx < 0) ∧
    labelStyle (lineAngle (fun y x => Complex.arg ⟨x, y⟩) Real.pi dx dy) =
      (if dx < 0 then { transform := "translateX(-50%) rotate(180deg)", top := "8px" }
        else { transform := "translateX(-50%)", top := "-24px" }) ∧
    labelRotation (lineAngle (fun y x => Complex.arg ⟨x, y⟩) Real.pi dx dy) =
      (if dx < 0 then 180 else 0) ∧
    ∃ k : Int,
      -90 ≤ lineAngle (fun y x => Complex.arg ⟨x, y⟩) Real.pi dx dy +
          labelRotation (lineAngle (fun y x => Complex.arg ⟨x, y⟩) Real.pi dx dy) +
          360 * (k : ℝ) ∧
        lineAngle (fun y x => Complex.arg ⟨x, y⟩) Real.pi dx dy +
          labelRotation (lineAngle (fun y x => Complex.arg ⟨x, y⟩) Real.pi dx dy) +
          360 * (k : ℝ) ≤ 90 := by
  have hflip := labelFlipped_iff (lineAngle (fun y x => Complex.arg ⟨x, y⟩) Real.pi dx dy)
  have hdx := lineAngle_abs_gt_iff dx dy
  obtain ⟨hlo, hhi⟩ := lineAngle_range dx dy
  have hfd : labelFlipped (lineAngle (fun y x => Complex.arg ⟨x, y⟩) Real.pi dx dy) = true ↔
      dx < 0 := hflip.trans hdx
  refine ⟨hflip, hdx, ?_, ?_, ?_⟩
  · by_cases h : dx < 0
    · simp only [labelStyle, hfd.2 h, if_true, if_pos h]
    · have hf : labelFlipped (lineAngle (fun y x => Complex.arg ⟨x, y⟩) Real.pi dx dy) =
          false := by
        cases hb : labelFlipped (lineAngle (fun y x => Complex.arg ⟨x, y⟩) Real.pi dx dy) with
        | false => rfl
        | true => exact absurd (hfd.1 hb) h
      simp only [labelStyle, hf, if_neg h]
      rfl
  · by_cases h : dx < 0
    · simp only [labelRotation, hfd.2 h, if_true, if_pos h]
    · have hf : labelFlipped (lineAngle (fun y x => Complex.arg ⟨x, y⟩) Real.pi dx dy) =
          false := by
        cases hb : labelFlipped (lineAngle (fun y x => Complex.arg ⟨x, y⟩) Real.pi dx dy) with
        | false => rfl
        | true => exact absurd (hfd.1 hb) h
      simp only [labelRotation, hf, if_neg h]
      rfl
  · by_cases h : 90 < |lineAngle (fun y x => Complex.arg ⟨x, y⟩) Real.pi dx dy|
    · have hr : labelRotation (lineAngle (fun y x => Complex.arg ⟨x, y⟩) Real.pi dx dy) =
          180 := by
        simp only [labelRotation, hflip.2 h, if_true]
      rw [hr]
      rcases lt_abs.1 h with hpos | hneg
      · refine ⟨-1, ?_, ?_⟩ <;> push_cast <;> linarith
      · refine ⟨0, ?_, ?_⟩ <;> push_cast <;> linarith
    · have hf : labelFlipped (lineAngle (fun y x => Complex.arg ⟨x, y⟩) Real.pi dx dy) =
          false := by
        cases hb : labelFlipped (lineAngle (fun y x => Complex.arg ⟨x, y⟩) Real.pi dx dy) with
        | false => rfl
        | true => exact absurd (hflip.1 hb) h
      have hr : labelRotation (lineAngle (fun y x => Complex.arg ⟨x, y⟩) Real.pi dx dy) =
          0 := by
        simp only [labelRotation, hf]
        rfl
      rw [hr]
      have hle := abs_le.1 (not_lt.1 h)
      refine ⟨0, ?_, ?_⟩ <;> push_cast <;> linarith [hle.1, hle.2]

end FlipTheorems

section EdgeVertexLemmas

theorem closestPoint_segment_bound (p a b : Vector3 ℝ) :
    (∃ s : ℝ, 0 ≤ s ∧ s ≤ 1 ∧
      closestPointOnLineSegment Real.sqrt p a b = Vector3.lerpVectors a b s) ∧
    ∀ s : ℝ, 0 ≤ s → s ≤ 1 →
      Vector3.distanceTo Real.sqrt p (closestPointOnLineSegment Real.sqrt p a b) ≤
        Vector3.distanceTo Real.sqrt p (Vector3.lerpVectors a b s) := by
  obtain ⟨px, py, pz⟩ := p
  obtain ⟨ax, ay, az⟩ := a
  obtain ⟨bx, b_y, bz⟩ := b
  simp only [closestPointOnLineSegment, Vector3.subVectors, Vector3.length, Vector3.normalize,
    Vector3.divideScalar, Vector3.multiplyScalar, Vector3.dot, Vector3.addScaledVector,
    Vector3.lerpVectors, Vector3.distanceTo, Vector3.distanceToSquared]
  set S : ℝ := (bx - ax) * (bx - ax) + (b_y - ay) * (b_y - ay) + (bz - az) * (bz - az) with hS
  have hS0 : 0 ≤ S := by
    have := mul_self_nonneg (bx - ax); have := mul_self_nonneg (b_y - ay); have := mul_self_nonneg (bz - az)
    rw [hS]; linarith
  set L : ℝ := Real.sqrt S with hLdef
  have hL0 : 0 ≤ L := Real.sqrt_nonneg S
  have hLL : L * L = S := Real.mul_self_sqrt hS0
  by_cases hz : L = 0
  · have hSz : S = 0 := by rw [← hLL, hz]; ring
    have h1 : bx - ax = 0 := by nlinarith [mul_self_nonneg (bx - ax), mul_self_nonneg (b_y - ay), mul_self_nonneg (bz - az)]
    have h2 : b_y - ay = 0 := by nlinarith [mul_self_nonneg (bx - ax), mul_self_nonneg (b_y - ay), mul_self_nonneg (bz - az)]
    have h3 : bz - az = 0 := by nlinarith [mul_self_nonneg (bx - ax), mul_self_nonneg (b_y - ay), mul_self_nonneg (bz - az)]
    simp only [hz, if_true, h1, h2, h3]
    constructor
    · exact ⟨0, le_refl 0, zero_le_one, by simp⟩
    · intro s _ _
      simp
  · have hLpos : 0 < L := lt_of_le_of_ne hL0 (Ne.symm hz)
    simp only [hz, if_false]
    set τ : ℝ := (px - ax) * ((bx - ax) * (1 / L)) + (py - ay) * ((b_y - ay) * (1 / L)) +
      (pz - az) * ((bz - az) * (1 / L)) with hτ
    set t : ℝ := max 0 (min L τ) with ht
    obtain ⟨ht0, htL⟩ := clamp_range L τ hL0
    have hunit : ((bx - ax) * (1 / L)) * ((bx - ax) * (1 / L)) +
        ((b_y - ay) * (1 / L)) * ((b_y - ay) * (1 / L)) +
        ((bz - az) * (1 / L)) * ((bz - az) * (1 / L)) = 1 := by
      have : ((bx - ax) * (1 / L)) * ((bx - ax) * (1 / L)) +
        ((b_y - ay) * (1 / L)) * ((b_y - ay) * (1 / L)) +
        ((bz - az) * (1 / L)) * ((bz - az) * (1 / L)) = S / (L * L) := by
        rw [hS]; field_simp
      rw [this, hLL]; exact div_self (by rw [← hLL]; positivity)
    constructor
    · refine ⟨t / L, div_nonneg ht0 hL0, (div_le_one hLpos).2 htL, ?_⟩
      congr 1 <;> field_simp
    · intro s hs0 hs1
      apply Real.sqrt_le_sqrt
      have hx0 : 0 ≤ s * L := mul_nonneg hs0 hL0
      have hxL : s * L ≤ L := by nlinarith
      have key := clamp_minimises L τ (s * L) hx0 hxL
      have e1 : ∀ c : ℝ, (c * (1 / L)) * L = c := by intro c; field_simp
      have lhs : (px - (ax + (bx - ax) * (1 / L) * t)) * (px - (ax + (bx - ax) * (1 / L) * t)) +
          (py - (ay + (b_y - ay) * (1 / L) * t)) * (py - (ay + (b_y - ay) * (1 / L) * t)) +
          (pz - (az + (bz - az) * (1 / L) * t)) * (pz - (az + (bz - az) * (1 / L) * t)) =
          ((px - ax) * (px - ax) + (py - ay) * (py - ay) + (pz - az) * (pz - az)) +
            (t * t - 2 * t * τ) := by
        have : (px - (ax + (bx - ax) * (1 / L) * t)) * (px - (ax + (bx - ax) * (1 / L) * t)) +
          (py - (ay + (b_y - ay) * (1 / L) * t)) * (py - (ay + (b_y - ay) * (1 / L) * t)) +
          (pz - (az + (bz - az) * (1 / L) * t)) * (pz - (az + (bz - az) * (1 / L) * t)) =
          ((px - ax) * (px - ax) + (py - ay) * (py - ay) + (pz - az) * (pz - az)) - 2 * t * τ +
            t * t * (((bx - ax) * (1 / L)) * ((bx - ax) * (1 / L)) +
        ((b_y - ay) * (1 / L)) * ((b_y - ay) * (1 / L)) +
        ((bz - az) * (1 / L)) * ((bz - az) * (1 / L))) := by rw [hτ]; ring
        rw [this, hunit]; ring
      have rhs : (px - (ax + (bx - ax) * s)) * (px - (ax + (bx - ax) * s)) +
          (py - (ay + (b_y - ay) * s)) * (py - (ay + (b_y - ay) * s)) +
          (pz - (az + (bz - az) * s)) * (pz - (az + (bz - az) * s)) =
          ((px - ax) * (px - ax) + (py - ay) * (py - ay) + (pz - az) * (pz - az)) +
            ((s * L) * (s * L) - 2 * (s * L) * τ) := by
        have hx : bx - ax = ((bx - ax) * (1 / L)) * L := (e1 _).symm
        have hy : b_y - ay = ((b_y - ay) * (1 / L)) * L := (e1 _).symm
        have hzz : bz - az = ((bz - az) * (1 / L)) * L := (e1 _).symm
        have : (px - (ax + (bx - ax) * s)) * (px - (ax + (bx - ax) * s)) +
          (py - (ay + (b_y - ay) * s)) * (py - (ay + (b_y - ay) * s)) +
          (pz - (az + (bz - az) * s)) * (pz - (az + (bz - az) * s)) =
          ((px - ax) * (px - ax) + (py - ay) * (py - ay) + (pz - az) * (pz - az))
            - 2 * s * ((px - ax) * (bx - ax) + (py - ay) * (b_y - ay) + (pz - az) * (bz - az))
            + s * s * S := by rw [hS]; ring
        rw [this, ← hLL]
        have hτL : (px - ax) * (bx - ax) + (py - ay) * (b_y - ay) + (pz - az) * (bz - az) = τ * L := by
          rw [hτ]; field_simp
        rw [hτL]; ring
      rw [lhs, rhs]; linarith

theorem closestPoint_le_endpoints (p a b : Vector3 ℝ) :
    Vector3.distanceTo Real.sqrt p (closestPointOnLineSegment Real.sqrt p a b) ≤
        Vector3.distanceTo Real.sqrt p a ∧
      Vector3.distanceTo Real.sqrt p (closestPointOnLineSegment Real.sqrt p a b) ≤
        Vector3.distanceTo Real.sqrt p b := by
  obtain ⟨_, h⟩ := closestPoint_segment_bound p a b
  have h0 := h 0 (le_refl 0) zero_le_one
  have h1 := h 1 zero_le_one (le_refl 1)
  have e0 : Vector3.lerpVectors a b (0 : ℝ) = a := by
    simp [Vector3.lerpVectors]
  have e1 : Vector3.lerpVectors a b (1 : ℝ) = b := by
    simp [Vector3.lerpVectors]
  rw [e0] at h0
  rw [e1] at h1
  exact ⟨h0, h1⟩

theorem vertex_on_some_edge (h : Vector3 ℝ) (f : Face ℝ) (v : Vector3 ℝ)
    (hv : v ∈ f.vertices) :
    ∃ e ∈ f.edges,
      Vector3.distanceTo Real.sqrt h (closestPointOnLineSegment Real.sqrt h e.1 e.2) ≤
        Vector3.distanceTo Real.sqrt h v := by
  simp only [Face.vertices, List.mem_cons, List.mem_singleton, List.not_mem_nil, or_false] at hv
  rcases hv with rfl | rfl | rfl
  · exact ⟨(f.v0, f.v1), by simp [Face.edges], (closestPoint_le_endpoints h f.v0 f.v1).1⟩
  · exact ⟨(f.v1, f.v2), by simp [Face.edges], (closestPoint_le_endpoints h f.v1 f.v2).1⟩
  · exact ⟨(f.v2, f.v0), by simp [Face.edges], (closestPoint_le_endpoints h f.v2 f.v0).1⟩

end EdgeVertexLemmas

section EdgeVertexTheorems

/-- C25: over the reals, for every face and hit point the nearest-edge-point
distance `de` the probe computes is at most its nearest-vertex distance `dv`;
so `dv < T * 0.5` implies `de < T` for `T = 0.5 / modelScaleFactor`; and the
probe returns the vertex (at distance below `T`) when `dv < T * 0.5`, otherwise
the edge point (at distance below `T`) when `de < T`, otherwise the raw hit
point. -/
theorem edge_distance_le_vertex_distance (h : Vector3 ℝ) (f : Face ℝ) (s : ℝ) :
    ∃ cv ce : Vector3 ℝ, ∃ dv de : ℝ,
      closestVertexLoop Real.sqrt h f.vertices = (some cv, (dv : WithTop ℝ)) ∧
      closestEdgeLoop Real.sqrt h f.edges = (some ce, (de : WithTop ℝ)) ∧
      dv = Vector3.distanceTo Real.sqrt h cv ∧
      de = Vector3.distanceTo Real.sqrt h ce ∧
      de ≤ dv ∧
      (dv < snapThreshold s * 0.5 → de < snapThreshold s) ∧
      (dv < snapThreshold s * 0.5 →
        snapDecision Real.sqrt s h f = some cv ∧
          Vector3.distanceTo Real.sqrt h cv < snapThreshold s) ∧
      (¬ dv < snapThreshold s * 0.5 → de < snapThreshold s →
        snapDecision Real.sqrt s h f = some ce ∧
          Vector3.distanceTo Real.sqrt h ce < snapThreshold s) ∧
      (¬ dv < snapThreshold s * 0.5 → ¬ de < snapThreshold s →
        snapDecision Real.sqrt s h f = some h) := by
  obtain ⟨cv, hcv, hcvl, _⟩ := closestVertexLoop_spec Real.sqrt h f
  obtain ⟨e, _, hel, hemin⟩ := closestEdgeLoop_spec Real.sqrt h f
  obtain ⟨e2, he2, hle2⟩ := vertex_on_some_edge h f cv hcv
  have hde : Vector3.distanceTo Real.sqrt h (closestPointOnLineSegment Real.sqrt h e.1 e.2) ≤
      Vector3.distanceTo Real.sqrt h cv := le_trans (hemin e2 he2) hle2
  have hdv0 : 0 ≤ Vector3.distanceTo Real.sqrt h cv := Real.sqrt_nonneg _
  have hhalf : ∀ t : ℝ, Vector3.distanceTo Real.sqrt h cv < t * 0.5 → t * 0.5 < t := by
    intro t ht
    have : 0 < t * 0.5 := lt_of_le_of_lt hdv0 ht
    norm_num at this ⊢
    linarith
  have hdec : snapDecision Real.sqrt s h f =
      (if Vector3.distanceTo Real.sqrt h cv < snapThreshold s * 0.5 then some cv
        else if Vector3.distanceTo Real.sqrt h
            (closestPointOnLineSegment Real.sqrt h e.1 e.2) < snapThreshold s then
          some (closestPointOnLineSegment Real.sqrt h e.1 e.2)
        else some h) := by
    simp only [snapDecision, hcvl, hel, WithTop.coe_lt_coe, snapThreshold]
  refine ⟨cv, closestPointOnLineSegment Real.sqrt h e.1 e.2, _, _, hcvl, hel, rfl, rfl, hde,
    ?_, ?_, ?_, ?_⟩
  · intro hlt
    exact lt_of_le_of_lt hde (lt_trans hlt (hhalf _ hlt))
  · intro hlt
    exact ⟨by rw [hdec, if_pos hlt], lt_trans hlt (hhalf _ hlt)⟩
  · intro hn hlt
    exact ⟨by rw [hdec, if_neg hn, if_pos hlt], hlt⟩
  · intro hn hn2
    rw [hdec, if_neg hn, if_neg hn2]

end EdgeVertexTheorems

end Viewer
